import Mathlib

/-!
Shallow embedding of the cortex operator's deployment reconciliation core
(pkg/operator/deployment/sync/api.go), used to settle the frozen claims
about its natural-language specification.  External collaborators (the
cluster object gateway, object storage, the spec materializer, the cron
scheduler, the autoscaling function) are modelled as oracles carried by an
environment record; the cluster state, the uploaded-spec set and the
process-wide autoscaler task registry form an explicit world state that is
threaded through every operation, together with a trace of the gateway
calls that were made.
-/

set_option maxRecDepth 4000

/-- Errors surfaced by the operations.  The wrap constructor mirrors
errors.Wrap, which prepends a context string. -/
inductive Err where
  | apiUpdating : String → Err
  | apiNotDeployed : String → Err
  | labelMissing : String → Err
  | gw : String → Err
  | wrap : String → Err → Err
  deriving DecidableEq, Repr

/-- Modelled from the spec: the pod compute specification (containers,
resources, volumes) is produced by the external spec materializer and is
only ever compared for semantic equality, so it is carried as an opaque
value with decidable equality. -/
structure PodCompute where
  blob : Nat
  deriving DecidableEq, Repr

/-- Modelled from the spec: the rollout strategy of a workload object,
opaque to the core and only compared for equality. -/
structure DeploymentStrategy where
  blob : Nat
  deriving DecidableEq, Repr

/-- Modelled from the spec: the external library predicate deciding
semantic equality of two pod compute specifications. -/
def PodComputesEqual (a b : PodCompute) : Bool := a == b

/-- Modelled from the spec: the external library predicate deciding
whether two rollout strategies match. -/
def DeploymentStrategiesMatch (a b : DeploymentStrategy) : Bool := a == b

/-- First-match association-list lookup, the reading of a string-keyed map. -/
def lookupMap {α : Type} : List (String × α) → String → Option α
  | [], _ => none
  | kv :: rest, k => if kv.1 == k then some kv.2 else lookupMap rest k

/-- Go map indexing on a string-valued map: a missing key reads as the
empty string. -/
def lookupStr (m : List (String × String)) (k : String) : String :=
  (lookupMap m k).getD ""

/-- Removal of a key from a string-keyed map. -/
def removeKey {α : Type} (m : List (String × α)) (k : String) : List (String × α) :=
  m.filter (fun kv => kv.1 != k)

/-- Map assignment: the new binding replaces any previous one. -/
def insertMap {α : Type} (m : List (String × α)) (k : String) (v : α) : List (String × α) :=
  (k, v) :: removeKey m k

/-- Substring containment, the semantics of strings.Contains in Go. -/
def strContains (s pat : String) : Bool := decide (pat.toList <:+: s.toList)

/-- A workload (deployment) object: identity labels, the pod template's
labels and compute spec, the rollout strategy, the object's annotations
and the observed ready-replica count. -/
structure Deployment where
  labels : List (String × String)
  templateLabels : List (String × String)
  template : PodCompute
  strategy : DeploymentStrategy
  annots : List (String × String)
  readyReplicas : Nat
  deriving DecidableEq, Repr

/-- A live pod: its labels, its compute spec and its observed phase. -/
structure Pod where
  labels : List (String × String)
  podSpec : PodCompute
  ready : Bool
  failed : Bool
  deriving DecidableEq, Repr

/-- A network-endpoint (service) object, opaque to the claims. -/
structure Service where
  owner : String
  deriving DecidableEq, Repr

/-- A routing-rule (virtual service) object, opaque to the claims. -/
structure VirtualService where
  owner : String
  deriving DecidableEq, Repr

/-- Modelled from the spec: the parsed autoscaling policy of a workload;
only the configured minimum replica count is consulted by the core. -/
structure AutoscalingSpec where
  minReplicas : Nat
  deriving DecidableEq, Repr

/-- The user-supplied desired configuration of an API. -/
structure APIConfig where
  name : String
  compute : PodCompute
  strategy : DeploymentStrategy
  annots : List (String × String)
  deriving DecidableEq, Repr

/-- The materialized API specification: configuration plus project
identifier, content identity and rollout-generation identity, with the
object-storage key it is persisted under. -/
structure APISpec where
  name : String
  projectID : String
  deploymentID : String
  apiID : String
  key : String
  config : APIConfig
  deriving DecidableEq, Repr

/-- Modelled from the spec: the result of downloading a previously
persisted spec, carrying its configuration and project identifier. -/
structure DownloadedSpec where
  apiConfig : APIConfig
  projectID : String
  deriving DecidableEq, Repr

/-- Modelled from the spec: the spec materializer.  The content identity
and the storage key are derived deterministically from the configuration
and the project identifier; the rollout identity is the one passed in. -/
def GetAPISpec (c : APIConfig) (projectID deploymentID : String) : APISpec :=
  let apiID := "id-" ++ c.name ++ "-" ++ projectID
  { name := c.name
    projectID := projectID
    deploymentID := deploymentID
    apiID := apiID
    key := "apis/" ++ c.name ++ "/" ++ apiID
    config := c }

/-- The cluster-object naming convention for an API's objects. -/
def K8sName (apiName : String) : String := "api-" ++ apiName

/-- Modelled from the spec: the fresh-name source behind the generated
deployment identities.  Successive draws are pairwise distinct, which is
made provable by a length-distinguishing encoding of the draw counter. -/
def genName (n : Nat) : String := String.mk ('r' :: 'n' :: 'd' :: List.replicate n 'x')

/-- Modelled from the spec: the workload definition produced by the spec
materializer from a materialized API spec.  The three identity labels are
stamped on the object and on its pod template. -/
def DeploymentSpec (api : APISpec) (_prevDeployment : Option Deployment) : Deployment :=
  let idLabels := [("apiName", api.name), ("apiID", api.apiID), ("deploymentID", api.deploymentID)]
  { labels := idLabels
    templateLabels := idLabels
    template := api.config.compute
    strategy := api.config.strategy
    annots := api.config.annots
    readyReplicas := 0 }

/-- Modelled from the spec: the endpoint object produced for an API. -/
def serviceSpec (api : APISpec) : Service := ⟨api.name⟩

/-- Modelled from the spec: the routing-rule object produced for an API. -/
def virtualServiceSpec (api : APISpec) : VirtualService := ⟨api.name⟩

/-- Whether a pod belongs to the workload's current rollout revision:
its compute spec and its three identity labels match the template's. -/
def isPodSpecLatest (deployment : Deployment) (pod : Pod) : Bool :=
  PodComputesEqual deployment.template pod.podSpec &&
    (lookupStr deployment.templateLabels "apiName" == lookupStr pod.labels "apiName") &&
    (lookupStr deployment.templateLabels "apiID" == lookupStr pod.labels "apiID") &&
    (lookupStr deployment.templateLabels "deploymentID" == lookupStr pod.labels "deploymentID")

/-- The point-in-time replica counts, split by rollout revision. -/
structure ReplicaCounts where
  updatedReady : Nat
  updatedFailed : Nat
  staleReady : Nat
  staleFailed : Nat
  deriving DecidableEq, Repr

/-- Modelled from the spec: getReplicaCounts is not under src; per the
spec it partitions the live pods into current-revision and stale ones and
counts ready and failed pods within each partition. -/
def getReplicaCounts (deployment : Deployment) (pods : List Pod) : ReplicaCounts :=
  let updated := pods.filter (fun p => isPodSpecLatest deployment p)
  let stale := pods.filter (fun p => !isPodSpecLatest deployment p)
  { updatedReady := (updated.filter (·.ready)).length
    updatedFailed := (updated.filter (·.failed)).length
    staleReady := (stale.filter (·.ready)).length
    staleFailed := (stale.filter (·.failed)).length }

/-- The order-independent equality of two string maps used on the
reserved-annotation maps: the two maps agree on every key of either. -/
def StrMapsEqual (m1 m2 : List (String × String)) : Bool :=
  (m1.map Prod.fst ++ m2.map Prod.fst).all (fun k => lookupMap m1 k == lookupMap m2 k)

/-- The subset of an object's annotations whose key contains the reserved
marker, exactly as the source selects them with strings.Contains. -/
def extractCortexAnnotations (annots : List (String × String)) : List (String × String) :=
  annots.filter (fun kv => strContains kv.1 "cortex.dev/")

/-- Whether the reserved-marker annotations of two workload objects agree. -/
def doCortexAnnotationsMatch (d1 d2 : Deployment) : Bool :=
  StrMapsEqual (extractCortexAnnotations d1.annots) (extractCortexAnnotations d2.annots)

/-- The equality evaluator over two workload definitions. -/
def areAPIsEqual (d1 d2 : Deployment) : Bool :=
  PodComputesEqual d1.template d2.template &&
    DeploymentStrategiesMatch d1.strategy d2.strategy &&
    (lookupStr d1.labels "apiName" == lookupStr d2.labels "apiName") &&
    (lookupStr d1.labels "apiID" == lookupStr d2.labels "apiID") &&
    (lookupStr d1.labels "deploymentID" == lookupStr d2.labels "deploymentID") &&
    doCortexAnnotationsMatch d1 d2

/-- A handle in the autoscaler task registry's history: its identifier,
the API name it was registered under and whether it is still live. -/
structure CronEntry where
  id : Nat
  name : String
  live : Bool
  deriving DecidableEq, Repr

/-- One recorded gateway call. -/
inductive Effect where
  | createDep : String → Effect
  | updateDep : String → Effect
  | deleteDep : String → Effect
  | createSvc : String → Effect
  | updateSvc : String → Effect
  | deleteSvc : String → Effect
  | createVS : String → Effect
  | updateVS : String → Effect
  | deleteVS : String → Effect
  | upload : String → Effect
  | s3DirDelete : String → Effect
  | dashAdd : String → Effect
  | dashRemove : String → Effect
  | spawnTeardown : String → Effect
  deriving DecidableEq, Repr

/-- The world threaded through the operations: the three cluster object
stores, the set of uploaded spec keys, the autoscaler task registry (the
history of all handles plus the name-to-handle map), the fresh-name and
fresh-handle counters, the trace of gateway calls, and the names for which
a detached best-effort teardown was spawned (fire-and-forget tasks are
recorded, not executed, so their outcome never reaches the caller). -/
structure World where
  deployments : List (String × Deployment)
  services : List (String × Service)
  virtualServices : List (String × VirtualService)
  s3Keys : List String
  crons : List CronEntry
  cronMap : List (String × Nat)
  nextCronId : Nat
  nextRandom : Nat
  trace : List Effect
  spawned : List String

/-- The world before any operation has run. -/
def w0 : World :=
  { deployments := [], services := [], virtualServices := [], s3Keys := []
    crons := [], cronMap := [], nextCronId := 0, nextRandom := 0
    trace := [], spawned := [] }

/-- The environment of external collaborators: per-call failure oracles
for the cluster object gateway and object storage, the pod lister, the
autoscaling-annotation parser, the autoscaling-function derivation and the
persisted-spec download. -/
structure Env where
  getDeploymentErr : String → Option Err
  getServiceErr : String → Option Err
  getVirtualServiceErr : String → Option Err
  createDeploymentErr : String → Option Err
  updateDeploymentErr : String → Option Err
  deleteDeploymentErr : String → Option Err
  createServiceErr : String → Option Err
  updateServiceErr : String → Option Err
  deleteServiceErr : String → Option Err
  createVirtualServiceErr : String → Option Err
  updateVirtualServiceErr : String → Option Err
  deleteVirtualServiceErr : String → Option Err
  uploadErr : String → Option Err
  s3DeleteErr : String → Option Err
  listPods : String → Except Err (List Pod)
  parseAutoscaling : Deployment → Except Err AutoscalingSpec
  autoscaleFn : Deployment → Except Err Unit
  downloadAPISpec : String → String → Except Err DownloadedSpec
  getAllStatuses : Except Err (List String)

/-- Appends one recorded gateway call to the trace. -/
def pushT (w : World) (e : Effect) : World := { w with trace := w.trace ++ [e] }

/-- The rollout status tracker: lists the API's pods, parses the
autoscaling policy from the workload's annotations, and judges the rollout
still converging exactly when fewer than the configured minimum replicas
of the current revision are ready and no current-revision pod has failed. -/
def isAPIUpdating (env : Env) (deployment : Deployment) : Except Err Bool :=
  match env.listPods (lookupStr deployment.labels "apiName") with
  | .error e => .error e
  | .ok pods =>
    let replicaCounts := getReplicaCounts deployment pods
    match env.parseAutoscaling deployment with
    | .error e => .error e
    | .ok autoscalingSpec =>
      if replicaCounts.updatedReady < autoscalingSpec.minReplicas &&
          replicaCounts.updatedFailed == 0 then
        .ok true
      else
        .ok false

/-- Whether an API is deployed: exactly the existence of its routing-rule
(virtual service) object. -/
def IsAPIDeployed (env : Env) (apiName : String) (w : World) : Except Err Bool :=
  match env.getVirtualServiceErr (K8sName apiName) with
  | some e => .error e
  | none => .ok (lookupMap w.virtualServices (K8sName apiName)).isSome

/-- The gateway call creating a workload object. -/
def createDeployment (env : Env) (w : World) (n : String) (d : Deployment) : Option Err × World :=
  let w := pushT w (.createDep n)
  match env.createDeploymentErr n with
  | some e => (some e, w)
  | none => (none, { w with deployments := insertMap w.deployments n d })

/-- The gateway call updating a workload object in place. -/
def updateDeployment (env : Env) (w : World) (n : String) (d : Deployment) : Option Err × World :=
  let w := pushT w (.updateDep n)
  match env.updateDeploymentErr n with
  | some e => (some e, w)
  | none => (none, { w with deployments := insertMap w.deployments n d })

/-- The gateway call deleting a workload object. -/
def deleteDeployment (env : Env) (w : World) (n : String) : Option Err × World :=
  let w := pushT w (.deleteDep n)
  match env.deleteDeploymentErr n with
  | some e => (some e, w)
  | none => (none, { w with deployments := removeKey w.deployments n })

/-- The gateway call creating an endpoint object. -/
def createService (env : Env) (w : World) (n : String) (s : Service) : Option Err × World :=
  let w := pushT w (.createSvc n)
  match env.createServiceErr n with
  | some e => (some e, w)
  | none => (none, { w with services := insertMap w.services n s })

/-- The gateway call updating an endpoint object. -/
def updateService (env : Env) (w : World) (n : String) (s : Service) : Option Err × World :=
  let w := pushT w (.updateSvc n)
  match env.updateServiceErr n with
  | some e => (some e, w)
  | none => (none, { w with services := insertMap w.services n s })

/-- The gateway call deleting an endpoint object. -/
def deleteService (env : Env) (w : World) (n : String) : Option Err × World :=
  let w := pushT w (.deleteSvc n)
  match env.deleteServiceErr n with
  | some e => (some e, w)
  | none => (none, { w with services := removeKey w.services n })

/-- The gateway call creating a routing-rule object. -/
def createVirtualService (env : Env) (w : World) (n : String) (v : VirtualService) : Option Err × World :=
  let w := pushT w (.createVS n)
  match env.createVirtualServiceErr n with
  | some e => (some e, w)
  | none => (none, { w with virtualServices := insertMap w.virtualServices n v })

/-- The gateway call updating a routing-rule object. -/
def updateVirtualService (env : Env) (w : World) (n : String) (v : VirtualService) : Option Err × World :=
  let w := pushT w (.updateVS n)
  match env.updateVirtualServiceErr n with
  | some e => (some e, w)
  | none => (none, { w with virtualServices := insertMap w.virtualServices n v })

/-- The gateway call deleting a routing-rule object. -/
def deleteVirtualService (env : Env) (w : World) (n : String) : Option Err × World :=
  let w := pushT w (.deleteVS n)
  match env.deleteVirtualServiceErr n with
  | some e => (some e, w)
  | none => (none, { w with virtualServices := removeKey w.virtualServices n })

/-- The object-storage upload persisting a materialized spec. -/
def uploadSpec (env : Env) (w : World) (api : APISpec) : Option Err × World :=
  let w := pushT w (.upload api.key)
  match env.uploadErr api.key with
  | some e => (some e, w)
  | none => (none, { w with s3Keys := api.key :: w.s3Keys })

/-- First error among three action results, in launch order.  Modelled
from the spec: the fan-out helper runs all actions to completion and
returns one first-observed error; the spec records that no call site
depends on which error wins, so the sequentialization picks launch order. -/
def orErr3 (a b c : Option Err) : Option Err :=
  match a with
  | some e => some e
  | none => match b with
    | some e => some e
    | none => c

/-- The autoscaler task registry refresh for an applied workload object:
any previously registered handle for the API name is cancelled first, then
a new recurring task is derived from the current workload and registered
under the name; when the derivation fails the error is returned and the
registry entry is left as it was (still pointing at the cancelled handle). -/
def UpdateAutoscalerCron (env : Env) (deployment : Deployment) (w : World) : Option Err × World :=
  let apiName := lookupStr deployment.labels "apiName"
  let w :=
    match lookupMap w.cronMap apiName with
    | some id =>
      { w with crons := w.crons.map (fun c => if c.id == id then { c with live := false } else c) }
    | none => w
  match env.autoscaleFn deployment with
  | .error e => (some e, w)
  | .ok _ =>
    let id := w.nextCronId
    (none,
      { w with
          crons := w.crons ++ [{ id := id, name := apiName, live := true }]
          cronMap := insertMap w.cronMap apiName id
          nextCronId := id + 1 })

/-- The per-kind apply policy for the workload object: create when absent,
delete-then-create when the prior object never became ready, update in
place otherwise; on apply success the autoscaler task registry is
refreshed for the applied workload. -/
def applyK8sDeployment (env : Env) (api : APISpec) (prevDeployment : Option Deployment) (w : World) : Option Err × World :=
  let newDeployment := DeploymentSpec api prevDeployment
  let n := K8sName api.name
  let applied : Option Err × World :=
    match prevDeployment with
    | none => createDeployment env w n newDeployment
    | some prev =>
      if prev.readyReplicas == 0 then
        let (_, w1) := deleteDeployment env w n
        createDeployment env w1 n newDeployment
      else
        updateDeployment env w n newDeployment
  match applied with
  | (some e, w1) => (some e, w1)
  | (none, w1) => UpdateAutoscalerCron env newDeployment w1

/-- The per-kind apply policy for the endpoint object. -/
def applyK8sService (env : Env) (api : APISpec) (prevService : Option Service) (w : World) : Option Err × World :=
  let newService := serviceSpec api
  let n := K8sName api.name
  match prevService with
  | none => createService env w n newService
  | some _ => updateService env w n newService

/-- The per-kind apply policy for the routing-rule object. -/
def applyK8sVirtualService (env : Env) (api : APISpec) (prevVirtualService : Option VirtualService) (w : World) : Option Err × World :=
  let newVirtualService := virtualServiceSpec api
  let n := K8sName api.name
  match prevVirtualService with
  | none => createVirtualService env w n newVirtualService
  | some _ => updateVirtualService env w n newVirtualService

/-- The fan-out application of the three resources; all three actions run
and the first-observed error is returned. -/
def applyK8sResources (env : Env) (api : APISpec) (prevDeployment : Option Deployment)
    (prevService : Option Service) (prevVirtualService : Option VirtualService) (w : World) :
    Option Err × World :=
  let (e1, w1) := applyK8sDeployment env api prevDeployment w
  let (e2, w2) := applyK8sService env api prevService w1
  let (e3, w3) := applyK8sVirtualService env api prevVirtualService w2
  (orErr3 e1 e2 e3, w3)

/-- The fan-out fetch of the three live cluster objects; all three reads
run and the first-observed error fails the whole fetch. -/
def getK8sResources (env : Env) (apiName : String) (w : World) :
    Except Err (Option Deployment × Option Service × Option VirtualService) :=
  let n := K8sName apiName
  let e1 := env.getDeploymentErr n
  let e2 := env.getServiceErr n
  let e3 := env.getVirtualServiceErr n
  match orErr3 e1 e2 e3 with
  | some e => .error e
  | none => .ok (lookupMap w.deployments n, lookupMap w.services n, lookupMap w.virtualServices n)

/-- The teardown of an API's cluster objects: the autoscaler handle is
cancelled and removed from the registry, then the three objects are
deleted; all actions run and the first-observed error is returned. -/
def deleteK8sResources (env : Env) (apiName : String) (w : World) : Option Err × World :=
  let w :=
    match lookupMap w.cronMap apiName with
    | some id =>
      { w with
          crons := w.crons.map (fun c => if c.id == id then { c with live := false } else c)
          cronMap := removeKey w.cronMap apiName }
    | none => w
  let (e1, w1) := deleteDeployment env w (K8sName apiName)
  let (e2, w2) := deleteService env w1 (K8sName apiName)
  let (e3, w3) := deleteVirtualService env w2 (K8sName apiName)
  (orErr3 e1 e2 e3, w3)

/-- The best-effort deletion of an API's persisted artifacts from object
storage. -/
def deleteS3Resources (env : Env) (apiName : String) (w : World) : Option Err × World :=
  let w := pushT w (.s3DirDelete apiName)
  (env.s3DeleteErr apiName, w)

/-- Records the spawning of a detached fire-and-forget teardown; the task
is not executed as part of the operation and its outcome is never observed
by the caller. -/
def spawnTeardownW (w : World) (apiName : String) : World :=
  { w with spawned := w.spawned ++ [apiName], trace := w.trace ++ [.spawnTeardown apiName] }

/-- The deployment-identity choice of UpdateAPI: a freshly drawn name is
used unless the prior workload object exists and carries a non-empty
deploymentID label, in which case that label is kept. -/
def chooseDeploymentID (prevDeployment : Option Deployment) (fresh : String) : String :=
  match prevDeployment with
  | some d => if lookupStr d.labels "deploymentID" != "" then lookupStr d.labels "deploymentID" else fresh
  | none => fresh

/-- The UpdateAPI entry operation. -/
def UpdateAPI (env : Env) (apiConfig : APIConfig) (projectID : String) (force : Bool) (w : World) :
    Except Err (APISpec × String) × World :=
  match getK8sResources env apiConfig.name w with
  | .error e => (.error e, w)
  | .ok (prevDeployment, prevService, prevVirtualService) =>
    let fresh := genName w.nextRandom
    let w := { w with nextRandom := w.nextRandom + 1 }
    let deploymentID := chooseDeploymentID prevDeployment fresh
    let api := GetAPISpec apiConfig projectID deploymentID
    match prevDeployment with
    | none =>
      match uploadSpec env w api with
      | (some e, w) => (.error (.wrap "upload api spec" e), w)
      | (none, w) =>
        match applyK8sResources env api none prevService prevVirtualService w with
        | (some e, w) => (.error e, spawnTeardownW w api.name)
        | (none, w) =>
          let w := pushT w (.dashAdd api.name)
          (.ok (api, "creating " ++ api.name), w)
    | some prevD =>
      if !areAPIsEqual prevD (DeploymentSpec api (some prevD)) then
        match isAPIUpdating env prevD with
        | .error e => (.error e, w)
        | .ok isUp =>
          if isUp && !force then (.error (.apiUpdating api.name), w)
          else
            match uploadSpec env w api with
            | (some e, w) => (.error (.wrap "upload api spec" e), w)
            | (none, w) =>
              match applyK8sResources env api (some prevD) prevService prevVirtualService w with
              | (some e, w) => (.error e, w)
              | (none, w) => (.ok (api, "updating " ++ api.name), w)
      else
        match isAPIUpdating env prevD with
        | .error e => (.error e, w)
        | .ok isUp =>
          if isUp then (.ok (api, api.name ++ " is already updating"), w)
          else (.ok (api, api.name ++ " is up to date"), w)

/-- The RefreshAPI entry operation. -/
def RefreshAPI (env : Env) (apiName : String) (force : Bool) (w : World) :
    Except Err String × World :=
  match env.getDeploymentErr (K8sName apiName) with
  | some e => (.error e, w)
  | none =>
    match lookupMap w.deployments (K8sName apiName) with
    | none => (.error (.apiNotDeployed apiName), w)
    | some prevDeployment =>
      match isAPIUpdating env prevDeployment with
      | .error e => (.error e, w)
      | .ok isUp =>
        if isUp && !force then (.error (.apiUpdating apiName), w)
        else
          match lookupMap prevDeployment.labels "apiID" with
          | none => (.error (.labelMissing "apiID"), w)
          | some apiID =>
            match env.downloadAPISpec apiName apiID with
            | .error e => (.error e, w)
            | .ok dl =>
              let fresh := genName w.nextRandom
              let w := { w with nextRandom := w.nextRandom + 1 }
              let api := GetAPISpec dl.apiConfig dl.projectID fresh
              match uploadSpec env w api with
              | (some e, w) => (.error (.wrap "upload api spec" e), w)
              | (none, w) =>
                match applyK8sDeployment env api (some prevDeployment) w with
                | (some e, w) => (.error e, w)
                | (none, w) => (.ok ("updating " ++ api.name), w)

/-- The DeleteAPI entry operation: the cluster teardown, the conditional
best-effort object-storage deletion and the best-effort dashboard
deregistration all run, and only the cluster teardown's error propagates. -/
def DeleteAPI (env : Env) (apiName : String) (keepCache : Bool) (w : World) : Option Err × World :=
  let (e1, w1) := deleteK8sResources env apiName w
  let (e2, w2) :=
    if keepCache then (none, w1)
    else
      let (_, w') := deleteS3Resources env apiName w1
      (none, w')
  let (e3, w3) :=
    match env.getAllStatuses with
    | .error _ => (none, w2)
    | .ok _ => (none, pushT w2 (.dashRemove apiName))
  (orErr3 e1 e2 e3, w3)

/-- Whether a fallible collaborator call succeeded. -/
def exceptOk {α : Type} : Except Err α → Bool
  | .ok _ => true
  | .error _ => false

/-- One operation against the autoscaler task registry: a registration
refresh driven by an applied workload object, or the workload deletion
path for an API name.  Each operation carries the collaborator environment
in effect when it ran. -/
inductive RegOp where
  | refresh : Env → Deployment → RegOp
  | remove : Env → String → RegOp

/-- Executes one registry operation on the world. -/
def regStep (w : World) : RegOp → World
  | .refresh env d => (UpdateAutoscalerCron env d w).2
  | .remove env n => (deleteK8sResources env n w).2

/-- Executes a sequence of registry operations from the initial world. -/
def regRun (ops : List RegOp) : World := ops.foldl regStep w0

/-- How many handles registered under an API name are still live. -/
def liveCountFor (w : World) (name : String) : Nat :=
  (w.crons.filter (fun c => c.name == name && c.live)).length

/-- Whether every handle held by the registry map is live. -/
def registeredLive (w : World) : Bool :=
  w.cronMap.all (fun kv => w.crons.any (fun c => c.id == kv.2 && c.live))

/-- Whether every registration refresh in a sequence derived its task
successfully. -/
def allRefreshOk (ops : List RegOp) : Bool :=
  ops.all (fun op =>
    match op with
    | .refresh env d => exceptOk (env.autoscaleFn d)
    | .remove _ _ => true)

/-- String prefix test on the underlying character lists. -/
def strHasPre (s pat : String) : Bool := decide (pat.toList <+: s.toList)

/-- Follows the claim's words: the two workload definitions agree on pod
compute spec, rollout strategy and the three identity labels, and their
annotations agree on every key that carries the reserved marker as a
leading segment of the key, so they differ at most in annotations whose
keys do not carry the reserved marker as a leading segment. -/
def claimDiffOnlyNonReserved (d1 d2 : Deployment) : Bool :=
  PodComputesEqual d1.template d2.template &&
    DeploymentStrategiesMatch d1.strategy d2.strategy &&
    (lookupStr d1.labels "apiName" == lookupStr d2.labels "apiName") &&
    (lookupStr d1.labels "apiID" == lookupStr d2.labels "apiID") &&
    (lookupStr d1.labels "deploymentID" == lookupStr d2.labels "deploymentID") &&
    (d1.annots.map Prod.fst ++ d2.annots.map Prod.fst).all
      (fun k => !(strHasPre k "cortex.dev/") || (lookupMap d1.annots k == lookupMap d2.annots k))

/-- Whether the annotations of two workload definitions agree on every key
that contains the reserved marker anywhere in the key. -/
def cortexKeysAgree (d1 d2 : Deployment) : Bool :=
  (d1.annots.map Prod.fst ++ d2.annots.map Prod.fst).all
    (fun k => !(strContains k "cortex.dev/") || (lookupMap d1.annots k == lookupMap d2.annots k))

/-- A collaborator environment in which every external call succeeds, the
API has no pods and its autoscaling policy asks for zero minimum replicas. -/
def baseEnv : Env :=
  { getDeploymentErr := fun _ => none
    getServiceErr := fun _ => none
    getVirtualServiceErr := fun _ => none
    createDeploymentErr := fun _ => none
    updateDeploymentErr := fun _ => none
    deleteDeploymentErr := fun _ => none
    createServiceErr := fun _ => none
    updateServiceErr := fun _ => none
    deleteServiceErr := fun _ => none
    createVirtualServiceErr := fun _ => none
    updateVirtualServiceErr := fun _ => none
    deleteVirtualServiceErr := fun _ => none
    uploadErr := fun _ => none
    s3DeleteErr := fun _ => none
    listPods := fun _ => .ok []
    parseAutoscaling := fun _ => .ok ⟨0⟩
    autoscaleFn := fun _ => .ok ()
    downloadAPISpec := fun _ _ => .error (.gw "no download")
    getAllStatuses := .ok [] }

/-- An environment whose autoscaling-task derivation fails. -/
def envFailFn : Env := { baseEnv with autoscaleFn := fun _ => .error (.gw "autoscale derivation failed") }

/-- A desired configuration used by concrete scenarios. -/
def cfgA : APIConfig := { name := "a", compute := ⟨1⟩, strategy := ⟨1⟩, annots := [] }

/-- A workload object for API name a, used by concrete scenarios. -/
def depA : Deployment :=
  { labels := [("apiName", "a")], templateLabels := [("apiName", "a")]
    template := ⟨1⟩, strategy := ⟨1⟩, annots := [], readyReplicas := 1 }

/-- A prior workload object that exists but carries no deploymentID label. -/
def wPrevNoID : World := { w0 with deployments := [("api-a", depA)] }

/-- A ready current-revision pod of the scenario workload. -/
def podReady : Pod := { labels := [("apiName", "a")], podSpec := ⟨1⟩, ready := true, failed := false }

/-- A failed current-revision pod of the scenario workload. -/
def podFailed : Pod := { labels := [("apiName", "a")], podSpec := ⟨1⟩, ready := false, failed := true }

/-- An environment whose pod listing returns two ready current-revision
pods against a minimum of three replicas. -/
def envTwoReady : Env :=
  { baseEnv with
      listPods := fun _ => .ok [podReady, podReady]
      parseAutoscaling := fun _ => .ok ⟨3⟩ }

/-- An environment whose pod listing adds one failed current-revision pod
to the two ready ones, against a minimum of three replicas. -/
def envTwoReadyOneFailed : Env :=
  { baseEnv with
      listPods := fun _ => .ok [podReady, podReady, podFailed]
      parseAutoscaling := fun _ => .ok ⟨3⟩ }

/-- A prior workload object carrying the three identity labels. -/
def depAWithID : Deployment :=
  { labels := [("apiName", "a"), ("apiID", "id-a-p"), ("deploymentID", "did-1")]
    templateLabels := [("apiName", "a"), ("apiID", "id-a-p"), ("deploymentID", "did-1")]
    template := ⟨1⟩, strategy := ⟨1⟩, annots := [], readyReplicas := 1 }

/-- A world whose prior workload object carries a deploymentID label. -/
def wPrevID : World := { w0 with deployments := [("api-a", depAWithID)] }

/-- An environment whose workload-object creation fails. -/
def envCreateFail : Env :=
  { baseEnv with createDeploymentErr := fun _ => some (.gw "create failed") }

/-- An environment whose workload-object update fails. -/
def envUpdateFail : Env :=
  { baseEnv with updateDeploymentErr := fun _ => some (.gw "update failed") }

/-- An environment whose persisted-spec download succeeds with the
scenario configuration. -/
def envDownload : Env :=
  { baseEnv with downloadAPISpec := fun _ _ => .ok ⟨cfgA, "p"⟩ }

/-- The materialized spec of the scenario configuration at a fixed
rollout identity. -/
def apiSpecA : APISpec := GetAPISpec cfgA "p" "did-1"

/-- A workload definition whose only difference from its twin is the
value of an annotation whose key contains, but does not start with, the
reserved marker. -/
def depAnn1 : Deployment :=
  { labels := [], templateLabels := [], template := ⟨0⟩, strategy := ⟨0⟩
    annots := [("z.cortex.dev/note", "1")], readyReplicas := 0 }

/-- The twin of the previous workload definition. -/
def depAnn2 : Deployment :=
  { labels := [], templateLabels := [], template := ⟨0⟩, strategy := ⟨0⟩
    annots := [("z.cortex.dev/note", "2")], readyReplicas := 0 }

/-- A registry-operation sequence whose second registration refresh fails
to derive its task. -/
def opsFailSecond : List RegOp := [.refresh baseEnv depA, .refresh envFailFn depA]

/-- A registry-operation sequence of two successful registration
refreshes for the same API name. -/
def opsTwoRefresh : List RegOp := [.refresh baseEnv depA, .refresh baseEnv depA]

/-- The registry well-formedness invariant over its components: every
handle identifier is below the allocation counter, handle identifiers are
pairwise distinct, every live handle is the one its API name maps to, and
every map entry points at a handle registered under that name. -/
def regInvOn (crons : List CronEntry) (cronMap : List (String × Nat)) (nextId : Nat) : Prop :=
  (∀ c ∈ crons, c.id < nextId) ∧
  (crons.map CronEntry.id).Nodup ∧
  (∀ c ∈ crons, c.live = true → lookupMap cronMap c.name = some c.id) ∧
  (∀ kv ∈ cronMap, ∃ c ∈ crons, c.id = kv.2 ∧ c.name = kv.1)

/-- The registry well-formedness invariant of a world. -/
def regInv (w : World) : Prop := regInvOn w.crons w.cronMap w.nextCronId

/-- Every handle held by the registry map is live, over the components. -/
def regDOn (crons : List CronEntry) (cronMap : List (String × Nat)) : Prop :=
  ∀ kv ∈ cronMap, ∃ c ∈ crons, c.id = kv.2 ∧ c.live = true

/-- Every handle held by the registry map of a world is live. -/
def regD (w : World) : Prop := regDOn w.crons w.cronMap


theorem lookupMap_filter {α : Type} (p : String → Bool) (m : List (String × α)) (k : String) :
    lookupMap (m.filter (fun kv => p kv.1)) k = if p k then lookupMap m k else none := by
  induction m with
  | nil => cases hp : p k <;> simp [lookupMap, hp]
  | cons kv rest ih =>
    simp only [List.filter_cons]
    by_cases hpk : p kv.1 = true
    · rw [if_pos hpk]
      by_cases hk : kv.1 = k
      · subst hk; simp [lookupMap, hpk]
      · simp [lookupMap, hk, ih]
    · rw [if_neg hpk]
      by_cases hk : kv.1 = k
      · subst hk
        rw [ih]
        simp only [Bool.not_eq_true] at hpk
        simp [lookupMap, hpk]
      · simp [lookupMap, hk, ih]

theorem lookupMap_removeKey_ne {α : Type} (m : List (String × α)) (k k' : String)
    (h : k' ≠ k) : lookupMap (removeKey m k) k' = lookupMap m k' := by
  have hfe : lookupMap (removeKey m k) k' = if (k' != k) = true then lookupMap m k' else none :=
    lookupMap_filter (fun s => s != k) m k'
  rw [hfe, if_pos (by simpa using h)]

theorem lookupMap_removeKey_self {α : Type} (m : List (String × α)) (k : String) :
    lookupMap (removeKey m k) k = none := by
  have hfe : lookupMap (removeKey m k) k = if (k != k) = true then lookupMap m k else none :=
    lookupMap_filter (fun s => s != k) m k
  rw [hfe, if_neg (by simp)]

theorem lookupMap_insert_self {α : Type} (m : List (String × α)) (k : String) (v : α) :
    lookupMap (insertMap m k v) k = some v := by
  simp [insertMap, lookupMap]

theorem lookupMap_insert_ne {α : Type} (m : List (String × α)) (k k' : String) (v : α)
    (h : k' ≠ k) : lookupMap (insertMap m k v) k' = lookupMap m k' := by
  simp only [insertMap, lookupMap]
  rw [if_neg (by simpa using fun hkk => h (by simp_all))]
  exact lookupMap_removeKey_ne m k k' h

theorem mem_removeKey {α : Type} {m : List (String × α)} {k : String} {kv : String × α}
    (h : kv ∈ removeKey m k) : kv ∈ m ∧ kv.1 ≠ k := by
  have := List.mem_filter.mp h
  exact ⟨this.1, by simpa using this.2⟩

theorem lookupMap_mem {α : Type} {m : List (String × α)} {k : String} {v : α}
    (h : lookupMap m k = some v) : (k, v) ∈ m := by
  induction m with
  | nil => simp [lookupMap] at h
  | cons kv rest ih =>
    rw [lookupMap] at h
    split at h
    · rename_i heq
      have h1 : kv.1 = k := by simpa using heq
      have h2 : kv.2 = v := by simpa using h
      have hkv : kv = (k, v) := by cases kv; simp_all
      rw [← hkv]
      exact List.mem_cons_self _ _
    · exact List.mem_cons_of_mem _ (ih h)

/-- C10: IsAPIDeployed reports an API as deployed exactly when its
routing-rule (virtual service) object exists; the workload and endpoint
objects have no influence on the result. -/
theorem c10_isAPIDeployed (env : Env) (apiName : String) (w : World)
    (h : env.getVirtualServiceErr (K8sName apiName) = none) :
    IsAPIDeployed env apiName w = .ok (lookupMap w.virtualServices (K8sName apiName)).isSome ∧
    (∀ deps svcs, IsAPIDeployed env apiName
        { w with deployments := deps, services := svcs } = IsAPIDeployed env apiName w) := by
  constructor
  · simp [IsAPIDeployed, h]
  · intro deps svcs
    simp [IsAPIDeployed, h]

theorem c10_isAPIDeployed_witness :
    IsAPIDeployed baseEnv "a" wPrevNoID = .ok false ∧
    IsAPIDeployed baseEnv "a"
        { wPrevNoID with deployments := [], services := [("api-a", ⟨"a"⟩)] } =
      IsAPIDeployed baseEnv "a" wPrevNoID := by
  constructor
  · exact ((c10_isAPIDeployed baseEnv "a" wPrevNoID rfl).1).trans rfl
  · exact (c10_isAPIDeployed baseEnv "a" wPrevNoID rfl).2 [] [("api-a", ⟨"a"⟩)]

/-- C4: given a successful pod listing and a successful parse of the
autoscaling policy, isAPIUpdating reports the rollout as converging
exactly when the ready count among current-revision pods is below the
configured minimum replica count and the failed count among
current-revision pods is zero, and any failed current-revision pod forces
a non-converging verdict. -/
theorem c4_isAPIUpdating (env : Env) (d : Deployment) (pods : List Pod) (aspec : AutoscalingSpec)
    (hp : env.listPods (lookupStr d.labels "apiName") = .ok pods)
    (ha : env.parseAutoscaling d = .ok aspec) :
    isAPIUpdating env d =
      .ok (decide
          (((pods.filter (fun p => isPodSpecLatest d p)).filter (·.ready)).length <
            aspec.minReplicas) &&
        (((pods.filter (fun p => isPodSpecLatest d p)).filter (·.failed)).length == 0)) ∧
    (0 < ((pods.filter (fun p => isPodSpecLatest d p)).filter (·.failed)).length →
      isAPIUpdating env d = .ok false) := by
  have hmain : isAPIUpdating env d =
      .ok (decide
          (((pods.filter (fun p => isPodSpecLatest d p)).filter (·.ready)).length <
            aspec.minReplicas) &&
        (((pods.filter (fun p => isPodSpecLatest d p)).filter (·.failed)).length == 0)) := by
    simp only [isAPIUpdating, hp, ha, getReplicaCounts]
    split <;> rename_i hc
    · rw [hc]
    · rw [Bool.not_eq_true] at hc
      rw [hc]
  refine ⟨hmain, fun hf => ?_⟩
  rw [hmain]
  have h0 : (((pods.filter (fun p => isPodSpecLatest d p)).filter (·.failed)).length == 0) = false := by
    have hne : ((pods.filter (fun p => isPodSpecLatest d p)).filter (·.failed)).length ≠ 0 :=
      Nat.pos_iff_ne_zero.mp hf
    simpa using hne
  rw [h0, Bool.and_false]

theorem c4_isAPIUpdating_witness :
    isAPIUpdating envTwoReady depA = .ok true ∧
    isAPIUpdating envTwoReadyOneFailed depA = .ok false ∧
    isAPIUpdating { envTwoReady with listPods := fun _ => .ok [podReady, podReady, podReady] }
        depA = .ok false := by
  refine ⟨?_, ?_, ?_⟩
  · exact ((c4_isAPIUpdating envTwoReady depA [podReady, podReady] ⟨3⟩ rfl rfl).1).trans rfl
  · exact (c4_isAPIUpdating envTwoReadyOneFailed depA [podReady, podReady, podFailed] ⟨3⟩
      rfl rfl).2 (by decide)
  · exact ((c4_isAPIUpdating
      { envTwoReady with listPods := fun _ => .ok [podReady, podReady, podReady] }
      depA [podReady, podReady, podReady] ⟨3⟩ rfl rfl).1).trans rfl

theorem orErr3_none_none (a : Option Err) : orErr3 a none none = a := by
  cases a <;> rfl

theorem deleteDeployment_trace (env : Env) (w : World) (n : String) :
    (deleteDeployment env w n).2.trace = w.trace ++ [Effect.deleteDep n] := by
  cases h : env.deleteDeploymentErr n <;> simp [deleteDeployment, pushT, h]

theorem deleteService_trace (env : Env) (w : World) (n : String) :
    (deleteService env w n).2.trace = w.trace ++ [Effect.deleteSvc n] := by
  cases h : env.deleteServiceErr n <;> simp [deleteService, pushT, h]

theorem deleteVirtualService_trace (env : Env) (w : World) (n : String) :
    (deleteVirtualService env w n).2.trace = w.trace ++ [Effect.deleteVS n] := by
  cases h : env.deleteVirtualServiceErr n <;> simp [deleteVirtualService, pushT, h]

theorem deleteS3Resources_trace (env : Env) (w : World) (n : String) :
    (deleteS3Resources env n w).2.trace = w.trace ++ [Effect.s3DirDelete n] := by
  simp [deleteS3Resources, pushT]

theorem deleteK8sResources_trace (env : Env) (n : String) (w : World) :
    (deleteK8sResources env n w).2.trace =
      w.trace ++ [Effect.deleteDep (K8sName n), Effect.deleteSvc (K8sName n),
        Effect.deleteVS (K8sName n)] := by
  unfold deleteK8sResources
  cases hcm : lookupMap w.cronMap n <;>
    simp [hcm, deleteDeployment, deleteService, deleteVirtualService, pushT] <;>
    cases h1 : env.deleteDeploymentErr (K8sName n) <;>
    cases h2 : env.deleteServiceErr (K8sName n) <;>
    cases h3 : env.deleteVirtualServiceErr (K8sName n) <;>
    simp [h1, h2, h3]

/-- C8: DeleteAPI with keepCache never invokes the object-storage deletion
path and without keepCache invokes it exactly once regardless of that
deletion's outcome; in every case the only error that propagates to the
caller is the one from the cluster-object teardown action (the
object-storage and dashboard actions always report success). -/
theorem c8_deleteAPI (env : Env) (apiName : String) (keepCache : Bool) (w : World) :
    (DeleteAPI env apiName keepCache w).1 = (deleteK8sResources env apiName w).1 ∧
    (DeleteAPI env apiName true w).2.trace.count (Effect.s3DirDelete apiName) =
      w.trace.count (Effect.s3DirDelete apiName) ∧
    (DeleteAPI env apiName false w).2.trace.count (Effect.s3DirDelete apiName) =
      w.trace.count (Effect.s3DirDelete apiName) + 1 := by
  rcases hdk : deleteK8sResources env apiName w with ⟨e1, w1⟩
  have hw1 : w1.trace = w.trace ++ [Effect.deleteDep (K8sName apiName),
      Effect.deleteSvc (K8sName apiName), Effect.deleteVS (K8sName apiName)] := by
    have := deleteK8sResources_trace env apiName w
    rw [hdk] at this
    exact this
  rcases hs3 : deleteS3Resources env apiName w1 with ⟨es, ws⟩
  have hws : ws.trace = w1.trace ++ [Effect.s3DirDelete apiName] := by
    have := deleteS3Resources_trace env w1 apiName
    rw [hs3] at this
    exact this
  refine ⟨?_, ?_, ?_⟩
  · cases hgs : env.getAllStatuses <;>
      cases keepCache <;>
      simp [DeleteAPI, hdk, hs3, hgs, orErr3_none_none]
  · cases hgs : env.getAllStatuses <;>
      simp [DeleteAPI, hdk, hgs, pushT, hw1, List.count_append]
  · cases hgs : env.getAllStatuses <;>
      simp [DeleteAPI, hdk, hs3, hgs, pushT, hws, hw1, List.count_append]

theorem lookup_extract (a : List (String × String)) (k : String) :
    lookupMap (extractCortexAnnotations a) k =
      if strContains k "cortex.dev/" = true then lookupMap a k else none := by
  unfold extractCortexAnnotations
  exact lookupMap_filter (fun s => strContains s "cortex.dev/") a k

theorem cortexAgree_match (d1 d2 : Deployment) (h : cortexKeysAgree d1 d2 = true) :
    doCortexAnnotationsMatch d1 d2 = true := by
  unfold doCortexAnnotationsMatch StrMapsEqual
  rw [List.all_eq_true]
  intro k hk
  unfold cortexKeysAgree at h
  rw [List.all_eq_true] at h
  have hlook : lookupMap d1.annots k = lookupMap d2.annots k := by
    rw [List.mem_append] at hk
    rcases hk with hk1 | hk1
    all_goals {
      obtain ⟨kv, hkvmem, hkvfst⟩ := List.mem_map.mp hk1
      have hmemf := List.mem_filter.mp hkvmem
      have hcont : strContains k "cortex.dev/" = true := by
        rw [← hkvfst]
        simpa using hmemf.2
      first
      | have hkmem : k ∈ d1.annots.map Prod.fst ++ d2.annots.map Prod.fst :=
          List.mem_append.mpr (Or.inl (List.mem_map.mpr ⟨kv, hmemf.1, hkvfst⟩))
      | have hkmem : k ∈ d1.annots.map Prod.fst ++ d2.annots.map Prod.fst :=
          List.mem_append.mpr (Or.inr (List.mem_map.mpr ⟨kv, hmemf.1, hkvfst⟩))
      have hker := h k hkmem
      simp only [hcont, Bool.not_true, Bool.false_or] at hker
      simpa using hker
    }
  rw [lookup_extract, lookup_extract, hlook]
  by_cases hc : strContains k "cortex.dev/" = true <;> simp [hc]

theorem cortexDiffer_not_match (d1 d2 : Deployment) (k : String)
    (hc : strContains k "cortex.dev/" = true)
    (hne : lookupMap d1.annots k ≠ lookupMap d2.annots k) :
    doCortexAnnotationsMatch d1 d2 = false := by
  unfold doCortexAnnotationsMatch StrMapsEqual
  rw [Bool.eq_false_iff]
  intro hall
  rw [List.all_eq_true] at hall
  have hkmem : k ∈ (extractCortexAnnotations d1.annots).map Prod.fst ++
      (extractCortexAnnotations d2.annots).map Prod.fst := by
    cases h1 : lookupMap d1.annots k with
    | some v =>
      have hin : (k, v) ∈ extractCortexAnnotations d1.annots :=
        List.mem_filter.mpr ⟨lookupMap_mem h1, by simpa using hc⟩
      exact List.mem_append.mpr (Or.inl (List.mem_map.mpr ⟨(k, v), hin, rfl⟩))
    | none =>
      cases h2 : lookupMap d2.annots k with
      | some v =>
        have hin : (k, v) ∈ extractCortexAnnotations d2.annots :=
          List.mem_filter.mpr ⟨lookupMap_mem h2, by simpa using hc⟩
        exact List.mem_append.mpr (Or.inr (List.mem_map.mpr ⟨(k, v), hin, rfl⟩))
      | none => exact absurd (h1.trans h2.symm) hne
  have hk := hall k hkmem
  simp only [lookup_extract, hc, if_true] at hk
  exact hne (by simpa using hk)

/-- C3 counterexample: two workload definitions that agree on compute
spec, strategy and identity labels and differ only in the value of an
annotation whose key does not start with the reserved marker (it merely
contains it) are reported not-equal by the equality evaluator, against the
claim's prediction. -/
theorem c3_counterexample :
    claimDiffOnlyNonReserved depAnn1 depAnn2 = true ∧ areAPIsEqual depAnn1 depAnn2 = false := by
  decide

/-- C3 amended: the equality evaluator reports equal for every pair of
workload definitions that agree on pod compute spec, rollout strategy, the
three identity labels and every annotation whose key contains the reserved
marker cortex.dev/ anywhere in the key, and reports not-equal for every
pair differing in pod compute spec, rollout strategy, any of the three
identity labels, or an annotation whose key contains the reserved marker. -/
theorem c3_equality (d1 d2 : Deployment) :
    (PodComputesEqual d1.template d2.template = true →
      DeploymentStrategiesMatch d1.strategy d2.strategy = true →
      lookupStr d1.labels "apiName" = lookupStr d2.labels "apiName" →
      lookupStr d1.labels "apiID" = lookupStr d2.labels "apiID" →
      lookupStr d1.labels "deploymentID" = lookupStr d2.labels "deploymentID" →
      cortexKeysAgree d1 d2 = true →
      areAPIsEqual d1 d2 = true) ∧
    (PodComputesEqual d1.template d2.template = false → areAPIsEqual d1 d2 = false) ∧
    (DeploymentStrategiesMatch d1.strategy d2.strategy = false → areAPIsEqual d1 d2 = false) ∧
    (lookupStr d1.labels "apiName" ≠ lookupStr d2.labels "apiName" → areAPIsEqual d1 d2 = false) ∧
    (lookupStr d1.labels "apiID" ≠ lookupStr d2.labels "apiID" → areAPIsEqual d1 d2 = false) ∧
    (lookupStr d1.labels "deploymentID" ≠ lookupStr d2.labels "deploymentID" →
      areAPIsEqual d1 d2 = false) ∧
    (∀ k, strContains k "cortex.dev/" = true →
      lookupMap d1.annots k ≠ lookupMap d2.annots k → areAPIsEqual d1 d2 = false) := by
  refine ⟨?_, ?_, ?_, ?_, ?_, ?_, ?_⟩
  · intro h1 h2 h3 h4 h5 h6
    have hm := cortexAgree_match d1 d2 h6
    simp [areAPIsEqual, h1, h2, h3, h4, h5, hm]
  · intro h; simp [areAPIsEqual, h]
  · intro h; simp [areAPIsEqual, h]
  · intro h; simp [areAPIsEqual, h]
  · intro h; simp [areAPIsEqual, h]
  · intro h; simp [areAPIsEqual, h]
  · intro k hc hne
    have hm := cortexDiffer_not_match d1 d2 k hc hne
    simp [areAPIsEqual, hm]

theorem c3_equality_witness :
    areAPIsEqual { depAnn1 with annots := [("team", "x")] }
        { depAnn1 with annots := [("team", "y")] } = true ∧
    areAPIsEqual { depAnn1 with annots := [("cortex.dev/min", "1")] }
        { depAnn1 with annots := [("cortex.dev/min", "2")] } = false := by
  constructor
  · exact (c3_equality { depAnn1 with annots := [("team", "x")] }
      { depAnn1 with annots := [("team", "y")] }).1
      (by decide) (by decide) (by decide) (by decide) (by decide) (by decide)
  · exact (c3_equality { depAnn1 with annots := [("cortex.dev/min", "1")] }
      { depAnn1 with annots := [("cortex.dev/min", "2")] }).2.2.2.2.2.2
      "cortex.dev/min" (by decide) (by decide)

theorem GetAPISpec_deploymentID (c : APIConfig) (pid did : String) :
    (GetAPISpec c pid did).deploymentID = did := rfl

/-- C2 counterexample: a prior workload object exists but carries no
deploymentID label, and UpdateAPI materializes the new spec with the
freshly generated deploymentID instead of the (empty) label read from the
existing workload. -/
theorem c2_counterexample :
    lookupMap wPrevNoID.deployments (K8sName "a") = some depA ∧
    (match (UpdateAPI baseEnv cfgA "p" false wPrevNoID).1 with
      | .ok (api, _) => api.deploymentID
      | .error _ => "") = genName 0 ∧
    genName 0 ≠ lookupStr depA.labels "deploymentID" := by
  refine ⟨rfl, rfl, by decide⟩

/-- C2 amended: the deploymentID used to materialize the new spec equals
the deploymentID label read from the existing workload object whenever a
prior workload object exists and that label is non-empty; the freshly
generated deploymentID is used when no prior workload object exists or
when the existing object's deploymentID label is empty or missing. -/
theorem c2_deploymentID (env : Env) (cfg : APIConfig) (projectID : String) (force : Bool)
    (w : World) :
    (∀ d fresh, lookupStr d.labels "deploymentID" ≠ "" →
      chooseDeploymentID (some d) fresh = lookupStr d.labels "deploymentID") ∧
    (∀ d fresh, lookupStr d.labels "deploymentID" = "" →
      chooseDeploymentID (some d) fresh = fresh) ∧
    (∀ fresh, chooseDeploymentID none fresh = fresh) ∧
    (∀ prev ps pvs api msg w',
      getK8sResources env cfg.name w = .ok (prev, ps, pvs) →
      UpdateAPI env cfg projectID force w = (.ok (api, msg), w') →
      api.deploymentID = chooseDeploymentID prev (genName w.nextRandom)) := by
  refine ⟨?_, ?_, ?_, ?_⟩
  · intro d fresh h
    simp only [chooseDeploymentID]
    rw [if_pos (by simpa using h)]
  · intro d fresh h
    simp only [chooseDeploymentID]
    rw [if_neg (by simp [h])]
  · intro fresh
    rfl
  · intro prev ps pvs api msg w' hget hupd
    simp only [UpdateAPI, hget] at hupd
    split at hupd <;> split at hupd <;> (try split at hupd) <;> (try split at hupd) <;>
      (try split at hupd) <;> (try split at hupd) <;> simp_all [GetAPISpec] <;>
      (obtain ⟨⟨h1, h2⟩, h3⟩ := hupd; rw [← h1])

theorem c2_deploymentID_witness :
    chooseDeploymentID (some depAWithID) (genName 0) = "did-1" ∧
    (GetAPISpec cfgA "p" "did-1").deploymentID =
      chooseDeploymentID (some depAWithID) (genName wPrevID.nextRandom) := by
  constructor
  · exact ((c2_deploymentID baseEnv cfgA "p" false wPrevID).1 depAWithID (genName 0)
      (by decide)).trans rfl
  · exact (c2_deploymentID baseEnv cfgA "p" false wPrevID).2.2.2 (some depAWithID) none none
      (GetAPISpec cfgA "p" "did-1") "a is up to date" (UpdateAPI baseEnv cfgA "p" false wPrevID).2
      rfl rfl

theorem uploadSpec_fst (env : Env) (w : World) (api : APISpec) :
    (uploadSpec env w api).1 = env.uploadErr api.key := by
  cases h : env.uploadErr api.key <;> simp [uploadSpec, pushT, h]

theorem uploadSpec_spawned (env : Env) (w : World) (api : APISpec) :
    (uploadSpec env w api).2.spawned = w.spawned := by
  cases h : env.uploadErr api.key <;> simp [uploadSpec, pushT, h]

theorem createDeployment_frame (env : Env) (w : World) (n : String) (d : Deployment) :
    (createDeployment env w n d).2.spawned = w.spawned ∧
    (createDeployment env w n d).2.services = w.services ∧
    (createDeployment env w n d).2.virtualServices = w.virtualServices := by
  cases h : env.createDeploymentErr n <;> simp [createDeployment, pushT, h]

theorem updateDeployment_frame (env : Env) (w : World) (n : String) (d : Deployment) :
    (updateDeployment env w n d).2.spawned = w.spawned ∧
    (updateDeployment env w n d).2.services = w.services ∧
    (updateDeployment env w n d).2.virtualServices = w.virtualServices := by
  cases h : env.updateDeploymentErr n <;> simp [updateDeployment, pushT, h]

theorem deleteDeployment_frame (env : Env) (w : World) (n : String) :
    (deleteDeployment env w n).2.spawned = w.spawned ∧
    (deleteDeployment env w n).2.services = w.services ∧
    (deleteDeployment env w n).2.virtualServices = w.virtualServices := by
  cases h : env.deleteDeploymentErr n <;> simp [deleteDeployment, pushT, h]

theorem updateAutoscalerCron_frame (env : Env) (d : Deployment) (w : World) :
    (UpdateAutoscalerCron env d w).2.spawned = w.spawned ∧
    (UpdateAutoscalerCron env d w).2.services = w.services ∧
    (UpdateAutoscalerCron env d w).2.virtualServices = w.virtualServices := by
  unfold UpdateAutoscalerCron
  cases hcm : lookupMap w.cronMap (lookupStr d.labels "apiName") <;>
    cases hfn : env.autoscaleFn d <;> simp [hcm, hfn]

theorem applyK8sDeployment_frame (env : Env) (api : APISpec) (prev : Option Deployment)
    (w : World) :
    (applyK8sDeployment env api prev w).2.spawned = w.spawned ∧
    (applyK8sDeployment env api prev w).2.services = w.services ∧
    (applyK8sDeployment env api prev w).2.virtualServices = w.virtualServices := by
  unfold applyK8sDeployment
  cases prev with
  | none =>
    rcases hc : createDeployment env w (K8sName api.name) (DeploymentSpec api none) with ⟨ec, wc⟩
    have h1 := createDeployment_frame env w (K8sName api.name) (DeploymentSpec api none)
    rw [hc] at h1
    cases ec with
    | some e => simpa [hc] using h1
    | none =>
      have h2 := updateAutoscalerCron_frame env (DeploymentSpec api none) wc
      simp only [hc]
      exact ⟨h2.1.trans h1.1, (h2.2.1.trans h1.2.1), (h2.2.2.trans h1.2.2)⟩
  | some p =>
    by_cases hr : (p.readyReplicas == 0) = true
    · rcases hd : deleteDeployment env w (K8sName api.name) with ⟨ed, wd⟩
      have h0 := deleteDeployment_frame env w (K8sName api.name)
      rw [hd] at h0
      rcases hc : createDeployment env wd (K8sName api.name) (DeploymentSpec api (some p)) with ⟨ec, wc⟩
      have h1 := createDeployment_frame env wd (K8sName api.name) (DeploymentSpec api (some p))
      rw [hc] at h1
      cases ec with
      | some e =>
        simp only [hr, if_true, hd, hc]
        exact ⟨h1.1.trans h0.1, (h1.2.1.trans h0.2.1), (h1.2.2.trans h0.2.2)⟩
      | none =>
        have h2 := updateAutoscalerCron_frame env (DeploymentSpec api (some p)) wc
        simp only [hr, if_true, hd, hc]
        exact ⟨(h2.1.trans h1.1).trans h0.1, ((h2.2.1.trans h1.2.1).trans h0.2.1),
          ((h2.2.2.trans h1.2.2).trans h0.2.2)⟩
    · rcases hu : updateDeployment env w (K8sName api.name) (DeploymentSpec api (some p)) with ⟨eu, wu⟩
      have h1 := updateDeployment_frame env w (K8sName api.name) (DeploymentSpec api (some p))
      rw [hu] at h1
      cases eu with
      | some e => simp only [hr, if_false, hu]; simpa using h1
      | none =>
        have h2 := updateAutoscalerCron_frame env (DeploymentSpec api (some p)) wu
        simp only [hr, if_false, hu]
        exact ⟨h2.1.trans h1.1, (h2.2.1.trans h1.2.1), (h2.2.2.trans h1.2.2)⟩

theorem applyK8sService_spawned (env : Env) (api : APISpec) (prev : Option Service) (w : World) :
    (applyK8sService env api prev w).2.spawned = w.spawned := by
  unfold applyK8sService
  cases prev with
  | none => cases h : env.createServiceErr (K8sName api.name) <;> simp [createService, pushT, h]
  | some s => cases h : env.updateServiceErr (K8sName api.name) <;> simp [updateService, pushT, h]

theorem applyK8sVirtualService_spawned (env : Env) (api : APISpec) (prev : Option VirtualService)
    (w : World) :
    (applyK8sVirtualService env api prev w).2.spawned = w.spawned := by
  unfold applyK8sVirtualService
  cases prev with
  | none =>
    cases h : env.createVirtualServiceErr (K8sName api.name) <;>
      simp [createVirtualService, pushT, h]
  | some v =>
    cases h : env.updateVirtualServiceErr (K8sName api.name) <;>
      simp [updateVirtualService, pushT, h]

theorem applyK8sResources_spawned (env : Env) (api : APISpec) (pd : Option Deployment)
    (ps : Option Service) (pvs : Option VirtualService) (w : World) :
    (applyK8sResources env api pd ps pvs w).2.spawned = w.spawned := by
  unfold applyK8sResources
  rcases h1 : applyK8sDeployment env api pd w with ⟨e1, w1⟩
  rcases h2 : applyK8sService env api ps w1 with ⟨e2, w2⟩
  rcases h3 : applyK8sVirtualService env api pvs w2 with ⟨e3, w3⟩
  have f1 := (applyK8sDeployment_frame env api pd w).1
  have f2 := applyK8sService_spawned env api ps w1
  have f3 := applyK8sVirtualService_spawned env api pvs w2
  rw [h1] at f1
  rw [h2] at f2
  rw [h3] at f3
  simp [h1, h2, h3]
  exact (f3.trans f2).trans f1

/-- C5: when UpdateAPI creates a fresh API (no prior workload) and the
apply of the three resources fails, the original apply error is returned
and a detached best-effort teardown is spawned, recorded only as a
fire-and-forget task whose outcome is not part of the returned result;
when UpdateAPI applies a changed configuration over an existing workload
and the apply fails, the error is returned and no teardown is spawned. -/
theorem c5_updateAPI_applyFailure (env : Env) (cfg : APIConfig) (projectID : String)
    (force : Bool) (w : World) :
    (∀ ps pvs e wA,
      getK8sResources env cfg.name w = .ok (none, ps, pvs) →
      env.uploadErr (GetAPISpec cfg projectID (genName w.nextRandom)).key = none →
      applyK8sResources env (GetAPISpec cfg projectID (genName w.nextRandom)) none ps pvs
          (uploadSpec env { w with nextRandom := w.nextRandom + 1 }
            (GetAPISpec cfg projectID (genName w.nextRandom))).2 = (some e, wA) →
      UpdateAPI env cfg projectID force w = (.error e, spawnTeardownW wA cfg.name)) ∧
    (∀ prevD ps pvs b e wA,
      getK8sResources env cfg.name w = .ok (some prevD, ps, pvs) →
      areAPIsEqual prevD (DeploymentSpec (GetAPISpec cfg projectID
          (chooseDeploymentID (some prevD) (genName w.nextRandom))) (some prevD)) = false →
      isAPIUpdating env prevD = .ok b →
      (b && !force) = false →
      env.uploadErr (GetAPISpec cfg projectID
          (chooseDeploymentID (some prevD) (genName w.nextRandom))).key = none →
      applyK8sResources env
          (GetAPISpec cfg projectID (chooseDeploymentID (some prevD) (genName w.nextRandom)))
          (some prevD) ps pvs
          (uploadSpec env { w with nextRandom := w.nextRandom + 1 }
            (GetAPISpec cfg projectID (chooseDeploymentID (some prevD) (genName w.nextRandom)))).2 =
        (some e, wA) →
      UpdateAPI env cfg projectID force w = (.error e, wA) ∧ wA.spawned = w.spawned) := by
  constructor
  · intro ps pvs e wA hget hupOne happly
    rcases hu : uploadSpec env { w with nextRandom := w.nextRandom + 1 }
        (GetAPISpec cfg projectID (genName w.nextRandom)) with ⟨eu, wu⟩
    have heu : eu = none := by
      have := uploadSpec_fst env { w with nextRandom := w.nextRandom + 1 }
        (GetAPISpec cfg projectID (genName w.nextRandom))
      rw [hu] at this
      simpa [hupOne] using this
    subst heu
    rw [hu] at happly
    simp only [UpdateAPI, hget, chooseDeploymentID, hu, happly]
    rfl
  · intro prevD ps pvs b e wA hget hne hupd hforce hupOne happly
    rcases hu : uploadSpec env { w with nextRandom := w.nextRandom + 1 }
        (GetAPISpec cfg projectID (chooseDeploymentID (some prevD) (genName w.nextRandom)))
      with ⟨eu, wu⟩
    have heu : eu = none := by
      have := uploadSpec_fst env { w with nextRandom := w.nextRandom + 1 }
        (GetAPISpec cfg projectID (chooseDeploymentID (some prevD) (genName w.nextRandom)))
      rw [hu] at this
      simpa [hupOne] using this
    subst heu
    rw [hu] at happly
    have hspawn : wA.spawned = w.spawned := by
      have h1 := applyK8sResources_spawned env
        (GetAPISpec cfg projectID (chooseDeploymentID (some prevD) (genName w.nextRandom)))
        (some prevD) ps pvs wu
      rw [happly] at h1
      have h2 := uploadSpec_spawned env { w with nextRandom := w.nextRandom + 1 }
        (GetAPISpec cfg projectID (chooseDeploymentID (some prevD) (genName w.nextRandom)))
      rw [hu] at h2
      exact h1.trans h2
    refine ⟨?_, hspawn⟩
    simp only [UpdateAPI, hget, hne, Bool.not_false, if_true, hupd, hu, happly]
    rw [if_neg (by simp [hforce])]

theorem c5_updateAPI_applyFailure_witness :
    (UpdateAPI envCreateFail cfgA "p" false w0).1 = .error (.gw "create failed") ∧
    (UpdateAPI envCreateFail cfgA "p" false w0).2.spawned = ["a"] ∧
    (UpdateAPI envUpdateFail cfgA "p" false wPrevNoID).1 = .error (.gw "update failed") ∧
    (UpdateAPI envUpdateFail cfgA "p" false wPrevNoID).2.spawned = [] := by
  have hA := (c5_updateAPI_applyFailure envCreateFail cfgA "p" false w0).1 none none
    (.gw "create failed")
    (applyK8sResources envCreateFail (GetAPISpec cfgA "p" (genName 0)) none none none
      (uploadSpec envCreateFail { w0 with nextRandom := 1 }
        (GetAPISpec cfgA "p" (genName 0))).2).2
    rfl rfl rfl
  have hB := (c5_updateAPI_applyFailure envUpdateFail cfgA "p" false wPrevNoID).2 depA none none
    false (.gw "update failed")
    (applyK8sResources envUpdateFail
      (GetAPISpec cfgA "p" (chooseDeploymentID (some depA) (genName 0))) (some depA) none none
      (uploadSpec envUpdateFail { wPrevNoID with nextRandom := 1 }
        (GetAPISpec cfgA "p" (chooseDeploymentID (some depA) (genName 0)))).2).2
    rfl rfl rfl rfl rfl rfl
  refine ⟨?_, ?_, ?_, ?_⟩
  · rw [hA]
  · rw [hA]
    rfl
  · rw [hB.1]
  · rw [hB.1]
    exact hB.2.trans rfl

theorem uploadSpec_sv (env : Env) (w : World) (api : APISpec) :
    (uploadSpec env w api).2.services = w.services ∧
    (uploadSpec env w api).2.virtualServices = w.virtualServices := by
  cases h : env.uploadErr api.key <;> simp [uploadSpec, pushT, h]

theorem uploadSpec_s3Keys_ok (env : Env) (w : World) (api : APISpec)
    (h : env.uploadErr api.key = none) :
    (uploadSpec env w api).2.s3Keys = api.key :: w.s3Keys := by
  simp [uploadSpec, pushT, h]

theorem createDeployment_s3Keys (env : Env) (w : World) (n : String) (d : Deployment) :
    (createDeployment env w n d).2.s3Keys = w.s3Keys := by
  cases h : env.createDeploymentErr n <;> simp [createDeployment, pushT, h]

theorem updateDeployment_s3Keys (env : Env) (w : World) (n : String) (d : Deployment) :
    (updateDeployment env w n d).2.s3Keys = w.s3Keys := by
  cases h : env.updateDeploymentErr n <;> simp [updateDeployment, pushT, h]

theorem deleteDeployment_s3Keys (env : Env) (w : World) (n : String) :
    (deleteDeployment env w n).2.s3Keys = w.s3Keys := by
  cases h : env.deleteDeploymentErr n <;> simp [deleteDeployment, pushT, h]

theorem updateAutoscalerCron_s3Keys (env : Env) (d : Deployment) (w : World) :
    (UpdateAutoscalerCron env d w).2.s3Keys = w.s3Keys := by
  unfold UpdateAutoscalerCron
  cases hcm : lookupMap w.cronMap (lookupStr d.labels "apiName") <;>
    cases hfn : env.autoscaleFn d <;> simp [hcm, hfn]

theorem applyK8sDeployment_s3Keys (env : Env) (api : APISpec) (prev : Option Deployment)
    (w : World) :
    (applyK8sDeployment env api prev w).2.s3Keys = w.s3Keys := by
  unfold applyK8sDeployment
  cases prev with
  | none =>
    rcases hc : createDeployment env w (K8sName api.name) (DeploymentSpec api none) with ⟨ec, wc⟩
    have h1 := createDeployment_s3Keys env w (K8sName api.name) (DeploymentSpec api none)
    rw [hc] at h1
    cases ec with
    | some e => simpa [hc] using h1
    | none =>
      have h2 := updateAutoscalerCron_s3Keys env (DeploymentSpec api none) wc
      simp only [hc]
      exact h2.trans h1
  | some p =>
    by_cases hr : (p.readyReplicas == 0) = true
    · rcases hd : deleteDeployment env w (K8sName api.name) with ⟨ed, wd⟩
      have h0 := deleteDeployment_s3Keys env w (K8sName api.name)
      rw [hd] at h0
      rcases hc : createDeployment env wd (K8sName api.name) (DeploymentSpec api (some p)) with ⟨ec, wc⟩
      have h1 := createDeployment_s3Keys env wd (K8sName api.name) (DeploymentSpec api (some p))
      rw [hc] at h1
      cases ec with
      | some e =>
        simp only [hr, if_true, hd, hc]
        exact h1.trans h0
      | none =>
        have h2 := updateAutoscalerCron_s3Keys env (DeploymentSpec api (some p)) wc
        simp only [hr, if_true, hd, hc]
        exact (h2.trans h1).trans h0
    · rcases hu : updateDeployment env w (K8sName api.name) (DeploymentSpec api (some p)) with ⟨eu, wu⟩
      have h1 := updateDeployment_s3Keys env w (K8sName api.name) (DeploymentSpec api (some p))
      rw [hu] at h1
      cases eu with
      | some e => simp only [hr, if_false, hu]; simpa using h1
      | none =>
        have h2 := updateAutoscalerCron_s3Keys env (DeploymentSpec api (some p)) wu
        simp only [hr, if_false, hu]
        exact h2.trans h1

theorem genName_inj {a b : Nat} (h : genName a = genName b) : a = b := by
  unfold genName at h
  have hdata := congrArg String.data h
  have h2 : List.replicate a 'x' = List.replicate b 'x' := by
    simpa using hdata
  have h3 := congrArg List.length h2
  simpa using h3

theorem genName_fresh (n : Nat) : genName n ∉ (List.range n).map genName := by
  intro hmem
  obtain ⟨k, hk, heq⟩ := List.mem_map.mp hmem
  have hkn := genName_inj heq
  rw [hkn] at hk
  exact absurd (List.mem_range.mp hk) (lt_irrefl n)

/-- C6: every successful RefreshAPI call re-materializes the spec with a
freshly generated deploymentID never produced by an earlier draw, persists
it to object storage, applies only the workload object (the endpoint and
routing-rule stores are untouched), and reports updating. -/
theorem c6_refreshAPI (env : Env) (name : String) (force : Bool) (w : World)
    (pd : Deployment) (b : Bool) (aid : String) (dl : DownloadedSpec)
    (hget : env.getDeploymentErr (K8sName name) = none)
    (hprev : lookupMap w.deployments (K8sName name) = some pd)
    (hupd : isAPIUpdating env pd = .ok b)
    (hforce : (b && !force) = false)
    (haid : lookupMap pd.labels "apiID" = some aid)
    (hdl : env.downloadAPISpec name aid = .ok dl)
    (hupload : env.uploadErr (GetAPISpec dl.apiConfig dl.projectID (genName w.nextRandom)).key = none)
    (happly : (applyK8sDeployment env (GetAPISpec dl.apiConfig dl.projectID (genName w.nextRandom))
        (some pd)
        (uploadSpec env { w with nextRandom := w.nextRandom + 1 }
          (GetAPISpec dl.apiConfig dl.projectID (genName w.nextRandom))).2).1 = none) :
    RefreshAPI env name force w =
      (.ok ("updating " ++ dl.apiConfig.name),
        (applyK8sDeployment env (GetAPISpec dl.apiConfig dl.projectID (genName w.nextRandom))
          (some pd)
          (uploadSpec env { w with nextRandom := w.nextRandom + 1 }
            (GetAPISpec dl.apiConfig dl.projectID (genName w.nextRandom))).2).2) ∧
    (GetAPISpec dl.apiConfig dl.projectID (genName w.nextRandom)).deploymentID =
      genName w.nextRandom ∧
    genName w.nextRandom ∉ (List.range w.nextRandom).map genName ∧
    (RefreshAPI env name force w).2.services = w.services ∧
    (RefreshAPI env name force w).2.virtualServices = w.virtualServices ∧
    (GetAPISpec dl.apiConfig dl.projectID (genName w.nextRandom)).key ∈
      (RefreshAPI env name force w).2.s3Keys := by
  rcases hu : uploadSpec env { w with nextRandom := w.nextRandom + 1 }
      (GetAPISpec dl.apiConfig dl.projectID (genName w.nextRandom)) with ⟨eu, wu⟩
  have heu : eu = none := by
    have := uploadSpec_fst env { w with nextRandom := w.nextRandom + 1 }
      (GetAPISpec dl.apiConfig dl.projectID (genName w.nextRandom))
    rw [hu] at this
    simpa [hupload] using this
  subst heu
  rw [hu] at happly
  rcases ha : applyK8sDeployment env (GetAPISpec dl.apiConfig dl.projectID (genName w.nextRandom))
      (some pd) wu with ⟨ea, wa⟩
  have hea : ea = none := by
    rw [ha] at happly
    simpa using happly
  subst hea
  have hmain : RefreshAPI env name force w = (.ok ("updating " ++ dl.apiConfig.name), wa) := by
    simp only [RefreshAPI, hget, hprev, hupd, haid, hdl, hu, ha]
    rw [if_neg (by simp [hforce])]
    rfl
  have hframe := applyK8sDeployment_frame env
    (GetAPISpec dl.apiConfig dl.projectID (genName w.nextRandom)) (some pd) wu
  rw [ha] at hframe
  have hs3 := applyK8sDeployment_s3Keys env
    (GetAPISpec dl.apiConfig dl.projectID (genName w.nextRandom)) (some pd) wu
  rw [ha] at hs3
  have hsv := uploadSpec_sv env { w with nextRandom := w.nextRandom + 1 }
    (GetAPISpec dl.apiConfig dl.projectID (genName w.nextRandom))
  rw [hu] at hsv
  have hks := uploadSpec_s3Keys_ok env { w with nextRandom := w.nextRandom + 1 }
    (GetAPISpec dl.apiConfig dl.projectID (genName w.nextRandom)) hupload
  rw [hu] at hks
  refine ⟨?_, rfl, genName_fresh w.nextRandom, ?_, ?_, ?_⟩
  · exact hmain
  · rw [hmain]
    exact hframe.2.1.trans hsv.1
  · rw [hmain]
    exact hframe.2.2.trans hsv.2
  · rw [hmain]
    rw [hs3, hks]
    exact List.mem_cons_self _ _

theorem c6_refreshAPI_witness :
    RefreshAPI envDownload "a" false wPrevID =
      (.ok ("updating " ++ cfgA.name),
        (applyK8sDeployment envDownload (GetAPISpec cfgA "p" (genName 0)) (some depAWithID)
          (uploadSpec envDownload { wPrevID with nextRandom := 1 }
            (GetAPISpec cfgA "p" (genName 0))).2).2) ∧
    (RefreshAPI envDownload "a" false wPrevID).2.services = wPrevID.services ∧
    (RefreshAPI envDownload "a" false wPrevID).2.virtualServices = wPrevID.virtualServices ∧
    (GetAPISpec cfgA "p" (genName 0)).key ∈ (RefreshAPI envDownload "a" false wPrevID).2.s3Keys := by
  have h := c6_refreshAPI envDownload "a" false wPrevID depAWithID false "id-a-p" ⟨cfgA, "p"⟩
    rfl rfl rfl rfl rfl rfl rfl rfl
  exact ⟨h.1, h.2.2.2.1, h.2.2.2.2.1, h.2.2.2.2.2⟩

theorem createDeployment_fst (env : Env) (w : World) (n : String) (d : Deployment) :
    (createDeployment env w n d).1 = env.createDeploymentErr n := by
  cases h : env.createDeploymentErr n <;> simp [createDeployment, pushT, h]

theorem updateDeployment_fst (env : Env) (w : World) (n : String) (d : Deployment) :
    (updateDeployment env w n d).1 = env.updateDeploymentErr n := by
  cases h : env.updateDeploymentErr n <;> simp [updateDeployment, pushT, h]

theorem createDeployment_trace (env : Env) (w : World) (n : String) (d : Deployment) :
    (createDeployment env w n d).2.trace = w.trace ++ [Effect.createDep n] := by
  cases h : env.createDeploymentErr n <;> simp [createDeployment, pushT, h]

theorem updateDeployment_trace (env : Env) (w : World) (n : String) (d : Deployment) :
    (updateDeployment env w n d).2.trace = w.trace ++ [Effect.updateDep n] := by
  cases h : env.updateDeploymentErr n <;> simp [updateDeployment, pushT, h]

theorem updateAutoscalerCron_trace (env : Env) (d : Deployment) (w : World) :
    (UpdateAutoscalerCron env d w).2.trace = w.trace := by
  unfold UpdateAutoscalerCron
  cases hcm : lookupMap w.cronMap (lookupStr d.labels "apiName") <;>
    cases hfn : env.autoscaleFn d <;> simp [hcm, hfn]

theorem createDeployment_registry (env : Env) (w : World) (n : String) (d : Deployment) :
    (createDeployment env w n d).2.crons = w.crons ∧
    (createDeployment env w n d).2.cronMap = w.cronMap := by
  cases h : env.createDeploymentErr n <;> simp [createDeployment, pushT, h]

theorem updateDeployment_registry (env : Env) (w : World) (n : String) (d : Deployment) :
    (updateDeployment env w n d).2.crons = w.crons ∧
    (updateDeployment env w n d).2.cronMap = w.cronMap := by
  cases h : env.updateDeploymentErr n <;> simp [updateDeployment, pushT, h]

theorem deleteDeployment_registry (env : Env) (w : World) (n : String) :
    (deleteDeployment env w n).2.crons = w.crons ∧
    (deleteDeployment env w n).2.cronMap = w.cronMap := by
  cases h : env.deleteDeploymentErr n <;> simp [deleteDeployment, pushT, h]

/-- C7: applyK8sDeployment creates the workload when absent, deletes then
creates it when the prior object has zero ready replicas, updates it in
place otherwise, and hands the applied workload to the autoscaler task
registry refresh exactly on apply success; a failed create or update
returns the gateway error and leaves the task registry untouched. -/
theorem c7_applyPolicy (env : Env) (api : APISpec) (w : World) :
    ((env.createDeploymentErr (K8sName api.name) = none →
        applyK8sDeployment env api none w =
          UpdateAutoscalerCron env (DeploymentSpec api none)
            (createDeployment env w (K8sName api.name) (DeploymentSpec api none)).2) ∧
      (∀ e, env.createDeploymentErr (K8sName api.name) = some e →
        (applyK8sDeployment env api none w).1 = some e ∧
        (applyK8sDeployment env api none w).2.crons = w.crons ∧
        (applyK8sDeployment env api none w).2.cronMap = w.cronMap) ∧
      (applyK8sDeployment env api none w).2.trace =
        w.trace ++ [Effect.createDep (K8sName api.name)]) ∧
    (∀ p, p.readyReplicas = 0 →
      (env.createDeploymentErr (K8sName api.name) = none →
        applyK8sDeployment env api (some p) w =
          UpdateAutoscalerCron env (DeploymentSpec api (some p))
            (createDeployment env (deleteDeployment env w (K8sName api.name)).2
              (K8sName api.name) (DeploymentSpec api (some p))).2) ∧
      (∀ e, env.createDeploymentErr (K8sName api.name) = some e →
        (applyK8sDeployment env api (some p) w).1 = some e ∧
        (applyK8sDeployment env api (some p) w).2.crons = w.crons ∧
        (applyK8sDeployment env api (some p) w).2.cronMap = w.cronMap) ∧
      (applyK8sDeployment env api (some p) w).2.trace =
        w.trace ++ [Effect.deleteDep (K8sName api.name), Effect.createDep (K8sName api.name)]) ∧
    (∀ p, p.readyReplicas ≠ 0 →
      (env.updateDeploymentErr (K8sName api.name) = none →
        applyK8sDeployment env api (some p) w =
          UpdateAutoscalerCron env (DeploymentSpec api (some p))
            (updateDeployment env w (K8sName api.name) (DeploymentSpec api (some p))).2) ∧
      (∀ e, env.updateDeploymentErr (K8sName api.name) = some e →
        (applyK8sDeployment env api (some p) w).1 = some e ∧
        (applyK8sDeployment env api (some p) w).2.crons = w.crons ∧
        (applyK8sDeployment env api (some p) w).2.cronMap = w.cronMap) ∧
      (applyK8sDeployment env api (some p) w).2.trace =
        w.trace ++ [Effect.updateDep (K8sName api.name)]) := by
  refine ⟨⟨?_, ?_, ?_⟩, ?_, ?_⟩
  · intro hc
    rcases hcd : createDeployment env w (K8sName api.name) (DeploymentSpec api none) with ⟨ec, wc⟩
    have hfst := createDeployment_fst env w (K8sName api.name) (DeploymentSpec api none)
    rw [hcd, hc] at hfst
    simp only at hfst
    subst hfst
    simp only [applyK8sDeployment, hcd]
  · intro e hc
    rcases hcd : createDeployment env w (K8sName api.name) (DeploymentSpec api none) with ⟨ec, wc⟩
    have hfst := createDeployment_fst env w (K8sName api.name) (DeploymentSpec api none)
    rw [hcd, hc] at hfst
    simp only at hfst
    subst hfst
    have hreg := createDeployment_registry env w (K8sName api.name) (DeploymentSpec api none)
    rw [hcd] at hreg
    simp only [applyK8sDeployment, hcd]
    exact ⟨trivial, hreg.1, hreg.2⟩
  · rcases hcd : createDeployment env w (K8sName api.name) (DeploymentSpec api none) with ⟨ec, wc⟩
    have htr := createDeployment_trace env w (K8sName api.name) (DeploymentSpec api none)
    rw [hcd] at htr
    cases ec with
    | some e => simpa [applyK8sDeployment, hcd] using htr
    | none =>
      have hct := updateAutoscalerCron_trace env (DeploymentSpec api none) wc
      simp only [applyK8sDeployment, hcd]
      exact hct.trans htr
  · intro p hp
    have hp0 : (p.readyReplicas == 0) = true := by simp [hp]
    rcases hdd : deleteDeployment env w (K8sName api.name) with ⟨ed, wd⟩
    rcases hcd : createDeployment env wd (K8sName api.name) (DeploymentSpec api (some p)) with ⟨ec, wc⟩
    have hdt := deleteDeployment_trace env w (K8sName api.name)
    rw [hdd] at hdt
    have hdr := deleteDeployment_registry env w (K8sName api.name)
    rw [hdd] at hdr
    have hct := createDeployment_trace env wd (K8sName api.name) (DeploymentSpec api (some p))
    rw [hcd] at hct
    have hcr := createDeployment_registry env wd (K8sName api.name) (DeploymentSpec api (some p))
    rw [hcd] at hcr
    have hfst := createDeployment_fst env wd (K8sName api.name) (DeploymentSpec api (some p))
    rw [hcd] at hfst
    refine ⟨?_, ?_, ?_⟩
    · intro hc
      rw [hc] at hfst
      simp only at hfst
      subst hfst
      simp only [applyK8sDeployment, hp0, if_true, hdd, hcd]
    · intro e hc
      rw [hc] at hfst
      simp only at hfst
      subst hfst
      simp only [applyK8sDeployment, hp0, if_true, hdd, hcd]
      exact ⟨trivial, hcr.1.trans hdr.1, hcr.2.trans hdr.2⟩
    · cases ec with
      | some e =>
        simp only [applyK8sDeployment, hp0, if_true, hdd, hcd]
        rw [hct, hdt]
        simp
      | none =>
        have hcrt := updateAutoscalerCron_trace env (DeploymentSpec api (some p)) wc
        simp only [applyK8sDeployment, hp0, if_true, hdd, hcd]
        rw [hcrt, hct, hdt]
        simp
  · intro p hp
    have hp0 : (p.readyReplicas == 0) = false := by simp [hp]
    rcases hud : updateDeployment env w (K8sName api.name) (DeploymentSpec api (some p)) with ⟨eu, wu⟩
    have hut := updateDeployment_trace env w (K8sName api.name) (DeploymentSpec api (some p))
    rw [hud] at hut
    have hur := updateDeployment_registry env w (K8sName api.name) (DeploymentSpec api (some p))
    rw [hud] at hur
    have hfst := updateDeployment_fst env w (K8sName api.name) (DeploymentSpec api (some p))
    rw [hud] at hfst
    refine ⟨?_, ?_, ?_⟩
    · intro hc
      rw [hc] at hfst
      simp only at hfst
      subst hfst
      simp only [applyK8sDeployment, hp0, Bool.false_eq_true, if_false, hud]
    · intro e hc
      rw [hc] at hfst
      simp only at hfst
      subst hfst
      simp only [applyK8sDeployment, hp0, Bool.false_eq_true, if_false, hud]
      exact ⟨trivial, hur.1, hur.2⟩
    · cases eu with
      | some e => simp only [applyK8sDeployment, hp0, Bool.false_eq_true, if_false, hud]; exact hut
      | none =>
        have hcrt := updateAutoscalerCron_trace env (DeploymentSpec api (some p)) wu
        simp only [applyK8sDeployment, hp0, Bool.false_eq_true, if_false, hud]
        exact hcrt.trans hut

theorem c7_applyPolicy_witness :
    applyK8sDeployment baseEnv apiSpecA none w0 =
      UpdateAutoscalerCron baseEnv (DeploymentSpec apiSpecA none)
        (createDeployment baseEnv w0 (K8sName apiSpecA.name) (DeploymentSpec apiSpecA none)).2 ∧
    (applyK8sDeployment envCreateFail apiSpecA none w0).1 = some (.gw "create failed") ∧
    (applyK8sDeployment envCreateFail apiSpecA none w0).2.cronMap = w0.cronMap ∧
    (applyK8sDeployment baseEnv apiSpecA (some { depA with readyReplicas := 0 }) w0).2.trace =
      w0.trace ++ [Effect.deleteDep (K8sName apiSpecA.name),
        Effect.createDep (K8sName apiSpecA.name)] ∧
    (applyK8sDeployment baseEnv apiSpecA (some depA) w0).2.trace =
      w0.trace ++ [Effect.updateDep (K8sName apiSpecA.name)] := by
  refine ⟨(c7_applyPolicy baseEnv apiSpecA w0).1.1 rfl,
    ((c7_applyPolicy envCreateFail apiSpecA w0).1.2.1 (.gw "create failed") rfl).1,
    ((c7_applyPolicy envCreateFail apiSpecA w0).1.2.1 (.gw "create failed") rfl).2.2,
    ((c7_applyPolicy baseEnv apiSpecA w0).2.1 { depA with readyReplicas := 0 } rfl).2.2,
    ((c7_applyPolicy baseEnv apiSpecA w0).2.2 depA (by decide)).2.2⟩

theorem cancel_keeps_id_name (cid : Nat) (c : CronEntry) :
    (if c.id == cid then { c with live := false } else c).id = c.id ∧
    (if c.id == cid then { c with live := false } else c).name = c.name := by
  by_cases h : (c.id == cid) = true <;> simp [h]

theorem cancel_map_ids (cid : Nat) (l : List CronEntry) :
    (l.map (fun c => if c.id == cid then { c with live := false } else c)).map CronEntry.id =
      l.map CronEntry.id := by
  rw [List.map_map]
  apply List.map_congr_left
  intro c _
  exact (cancel_keeps_id_name cid c).1

theorem length_le_one_of_nodup_ids {l : List CronEntry}
    (hnd : (l.map CronEntry.id).Nodup) (k : Nat) (hall : ∀ c ∈ l, c.id = k) :
    l.length ≤ 1 := by
  cases l with
  | nil => simp
  | cons c1 rest =>
    cases rest with
    | nil => simp
    | cons c2 rest2 =>
      exfalso
      have h1 : c1.id = k := hall c1 (by simp)
      have h2 : c2.id = k := hall c2 (by simp)
      rw [List.map_cons, List.map_cons] at hnd
      have hnc := List.nodup_cons.mp hnd
      apply hnc.1
      rw [h1, h2]
      exact List.mem_cons_self _ _

theorem deleteDeployment_reg3 (env : Env) (w : World) (n : String) :
    (deleteDeployment env w n).2.crons = w.crons ∧
    (deleteDeployment env w n).2.cronMap = w.cronMap ∧
    (deleteDeployment env w n).2.nextCronId = w.nextCronId := by
  cases h : env.deleteDeploymentErr n <;> simp [deleteDeployment, pushT, h]

theorem deleteService_reg3 (env : Env) (w : World) (n : String) :
    (deleteService env w n).2.crons = w.crons ∧
    (deleteService env w n).2.cronMap = w.cronMap ∧
    (deleteService env w n).2.nextCronId = w.nextCronId := by
  cases h : env.deleteServiceErr n <;> simp [deleteService, pushT, h]

theorem deleteVirtualService_reg3 (env : Env) (w : World) (n : String) :
    (deleteVirtualService env w n).2.crons = w.crons ∧
    (deleteVirtualService env w n).2.cronMap = w.cronMap ∧
    (deleteVirtualService env w n).2.nextCronId = w.nextCronId := by
  cases h : env.deleteVirtualServiceErr n <;> simp [deleteVirtualService, pushT, h]

theorem deleteK8sResources_registry (env : Env) (n : String) (w : World) :
    (deleteK8sResources env n w).2.crons =
      (match lookupMap w.cronMap n with
        | some cid => w.crons.map (fun c => if c.id == cid then { c with live := false } else c)
        | none => w.crons) ∧
    (deleteK8sResources env n w).2.cronMap =
      (match lookupMap w.cronMap n with
        | some _ => removeKey w.cronMap n
        | none => w.cronMap) ∧
    (deleteK8sResources env n w).2.nextCronId = w.nextCronId := by
  unfold deleteK8sResources
  cases hcm : lookupMap w.cronMap n with
  | none =>
    simp only [hcm]
    rcases h1 : deleteDeployment env w (K8sName n) with ⟨e1, w1⟩
    rcases h2 : deleteService env w1 (K8sName n) with ⟨e2, w2⟩
    rcases h3 : deleteVirtualService env w2 (K8sName n) with ⟨e3, w3⟩
    have f1 := deleteDeployment_reg3 env w (K8sName n)
    have f2 := deleteService_reg3 env w1 (K8sName n)
    have f3 := deleteVirtualService_reg3 env w2 (K8sName n)
    rw [h1] at f1
    rw [h2] at f2
    rw [h3] at f3
    simp only at f1 f2 f3 ⊢
    exact ⟨(f3.1.trans f2.1).trans f1.1, (f3.2.1.trans f2.2.1).trans f1.2.1,
      (f3.2.2.trans f2.2.2).trans f1.2.2⟩
  | some cid =>
    simp only [hcm]
    rcases h1 : deleteDeployment env
        { w with
            crons := w.crons.map (fun c => if c.id == cid then { c with live := false } else c)
            cronMap := removeKey w.cronMap n } (K8sName n) with ⟨e1, w1⟩
    rcases h2 : deleteService env w1 (K8sName n) with ⟨e2, w2⟩
    rcases h3 : deleteVirtualService env w2 (K8sName n) with ⟨e3, w3⟩
    have f1 := deleteDeployment_reg3 env
      { w with
          crons := w.crons.map (fun c => if c.id == cid then { c with live := false } else c)
          cronMap := removeKey w.cronMap n } (K8sName n)
    have f2 := deleteService_reg3 env w1 (K8sName n)
    have f3 := deleteVirtualService_reg3 env w2 (K8sName n)
    rw [h1] at f1
    rw [h2] at f2
    rw [h3] at f3
    simp only at f1 f2 f3 ⊢
    exact ⟨(f3.1.trans f2.1).trans f1.1, (f3.2.1.trans f2.2.1).trans f1.2.1,
      (f3.2.2.trans f2.2.2).trans f1.2.2⟩

theorem updateAutoscalerCron_reg_err (env : Env) (d : Deployment) (w : World) (e : Err)
    (hfn : env.autoscaleFn d = .error e) :
    (UpdateAutoscalerCron env d w).2.crons =
      (match lookupMap w.cronMap (lookupStr d.labels "apiName") with
        | some cid => w.crons.map (fun c => if c.id == cid then { c with live := false } else c)
        | none => w.crons) ∧
    (UpdateAutoscalerCron env d w).2.cronMap = w.cronMap ∧
    (UpdateAutoscalerCron env d w).2.nextCronId = w.nextCronId := by
  unfold UpdateAutoscalerCron
  cases hcm : lookupMap w.cronMap (lookupStr d.labels "apiName") <;> simp [hcm, hfn]

theorem updateAutoscalerCron_reg_ok (env : Env) (d : Deployment) (w : World) (u : Unit)
    (hfn : env.autoscaleFn d = .ok u) :
    (UpdateAutoscalerCron env d w).2.crons =
      (match lookupMap w.cronMap (lookupStr d.labels "apiName") with
        | some cid => w.crons.map (fun c => if c.id == cid then { c with live := false } else c)
        | none => w.crons) ++
        [{ id := w.nextCronId, name := lookupStr d.labels "apiName", live := true }] ∧
    (UpdateAutoscalerCron env d w).2.cronMap =
      insertMap w.cronMap (lookupStr d.labels "apiName") w.nextCronId ∧
    (UpdateAutoscalerCron env d w).2.nextCronId = w.nextCronId + 1 := by
  unfold UpdateAutoscalerCron
  cases hcm : lookupMap w.cronMap (lookupStr d.labels "apiName") <;> simp [hcm, hfn]

theorem regInv_refresh (env : Env) (d : Deployment) (w : World) (h : regInv w) :
    regInv (UpdateAutoscalerCron env d w).2 := by
  obtain ⟨hA, hB, hC, hE⟩ := h
  cases hfn : env.autoscaleFn d with
  | error e =>
    obtain ⟨hcr, hcm2, hni⟩ := updateAutoscalerCron_reg_err env d w e hfn
    unfold regInv regInvOn
    rw [hcr, hcm2, hni]
    cases hcm : lookupMap w.cronMap (lookupStr d.labels "apiName") with
    | none => exact ⟨hA, hB, hC, hE⟩
    | some cid =>
      refine ⟨?_, ?_, ?_, ?_⟩
      · intro c' hc'
        obtain ⟨c, hc, hfc⟩ := List.mem_map.mp hc'
        rw [← hfc, (cancel_keeps_id_name cid c).1]
        exact hA c hc
      · rw [cancel_map_ids]
        exact hB
      · intro c' hc' hlive
        obtain ⟨c, hc, hfc⟩ := List.mem_map.mp hc'
        by_cases hid : (c.id == cid) = true
        · have hcc : c' = { c with live := false } := by rw [← hfc]; simp [hid]
          rw [hcc] at hlive
          simp at hlive
        · have hcc : c' = c := by rw [← hfc]; simp [hid]
          rw [hcc] at hlive ⊢
          exact hC c hc hlive
      · intro kv hkv
        obtain ⟨c, hc, hcid, hcname⟩ := hE kv hkv
        refine ⟨if c.id == cid then { c with live := false } else c,
          List.mem_map_of_mem _ hc, ?_, ?_⟩
        · rw [(cancel_keeps_id_name cid c).1]; exact hcid
        · rw [(cancel_keeps_id_name cid c).2]; exact hcname
  | ok u =>
    obtain ⟨hcr, hcm2, hni⟩ := updateAutoscalerCron_reg_ok env d w u hfn
    unfold regInv regInvOn
    rw [hcr, hcm2, hni]
    cases hcm : lookupMap w.cronMap (lookupStr d.labels "apiName") with
    | none =>
      refine ⟨?_, ?_, ?_, ?_⟩
      · intro c hc
        rcases List.mem_append.mp hc with h1 | h1
        · exact Nat.lt_succ_of_lt (hA c h1)
        · simp at h1
          rw [h1]
          exact Nat.lt_succ_self _
      · rw [List.map_append]
        apply List.nodup_append.mpr
        refine ⟨hB, by simp, ?_⟩
        intro a ha hb
        simp at hb
        obtain ⟨c, hc, hcid⟩ := List.mem_map.mp ha
        rw [hb] at hcid
        exact absurd (hcid ▸ hA c hc) (lt_irrefl _)
      · intro c hc hlive
        rcases List.mem_append.mp hc with h1 | h1
        · by_cases hcn : c.name = lookupStr d.labels "apiName"
          · have := hC c h1 hlive
            rw [hcn, hcm] at this
            exact absurd this (by simp)
          · rw [lookupMap_insert_ne _ _ _ _ hcn]
            exact hC c h1 hlive
        · simp at h1
          rw [h1]
          exact lookupMap_insert_self _ _ _
      · intro kv hkv
        rcases List.mem_cons.mp hkv with h1 | h1
        · refine ⟨{ id := w.nextCronId, name := lookupStr d.labels "apiName", live := true },
            List.mem_append.mpr (Or.inr (by simp)), ?_, ?_⟩
          · rw [h1]
          · rw [h1]
        · have hm := mem_removeKey h1
          obtain ⟨c, hc, hcid, hcname⟩ := hE kv hm.1
          exact ⟨c, List.mem_append.mpr (Or.inl hc), hcid, hcname⟩
    | some cid =>
      refine ⟨?_, ?_, ?_, ?_⟩
      · intro c' hc'
        rcases List.mem_append.mp hc' with h1 | h1
        · obtain ⟨c, hc, hfc⟩ := List.mem_map.mp h1
          rw [← hfc, (cancel_keeps_id_name cid c).1]
          exact Nat.lt_succ_of_lt (hA c hc)
        · simp at h1
          rw [h1]
          exact Nat.lt_succ_self _
      · rw [List.map_append, cancel_map_ids]
        apply List.nodup_append.mpr
        refine ⟨hB, by simp, ?_⟩
        intro a ha hb
        simp at hb
        obtain ⟨c, hc, hcid⟩ := List.mem_map.mp ha
        rw [hb] at hcid
        exact absurd (hcid ▸ hA c hc) (lt_irrefl _)
      · intro c' hc' hlive
        rcases List.mem_append.mp hc' with h1 | h1
        · obtain ⟨c, hc, hfc⟩ := List.mem_map.mp h1
          by_cases hid : (c.id == cid) = true
          · have hcc : c' = { c with live := false } := by rw [← hfc]; simp [hid]
            rw [hcc] at hlive
            simp at hlive
          · have hcc : c' = c := by rw [← hfc]; simp [hid]
            rw [hcc] at hlive ⊢
            by_cases hcn : c.name = lookupStr d.labels "apiName"
            · have := hC c hc hlive
              rw [hcn, hcm] at this
              have hceq : c.id = cid := by
                injection this with h9
                exact h9.symm
              simp [hceq] at hid
            · rw [lookupMap_insert_ne _ _ _ _ hcn]
              exact hC c hc hlive
        · simp at h1
          rw [h1]
          exact lookupMap_insert_self _ _ _
      · intro kv hkv
        rcases List.mem_cons.mp hkv with h1 | h1
        · refine ⟨{ id := w.nextCronId, name := lookupStr d.labels "apiName", live := true },
            List.mem_append.mpr (Or.inr (by simp)), ?_, ?_⟩
          · rw [h1]
          · rw [h1]
        · have hm := mem_removeKey h1
          obtain ⟨c, hc, hcid, hcname⟩ := hE kv hm.1
          refine ⟨if c.id == cid then { c with live := false } else c,
            List.mem_append.mpr (Or.inl (List.mem_map_of_mem _ hc)), ?_, ?_⟩
          · rw [(cancel_keeps_id_name cid c).1]; exact hcid
          · rw [(cancel_keeps_id_name cid c).2]; exact hcname

theorem regInv_remove (env : Env) (n : String) (w : World) (h : regInv w) :
    regInv (deleteK8sResources env n w).2 := by
  obtain ⟨hA, hB, hC, hE⟩ := h
  obtain ⟨hcr, hcm2, hni⟩ := deleteK8sResources_registry env n w
  unfold regInv regInvOn
  rw [hcr, hcm2, hni]
  cases hcm : lookupMap w.cronMap n with
  | none => exact ⟨hA, hB, hC, hE⟩
  | some cid =>
    refine ⟨?_, ?_, ?_, ?_⟩
    · intro c' hc'
      obtain ⟨c, hc, hfc⟩ := List.mem_map.mp hc'
      rw [← hfc, (cancel_keeps_id_name cid c).1]
      exact hA c hc
    · rw [cancel_map_ids]
      exact hB
    · intro c' hc' hlive
      obtain ⟨c, hc, hfc⟩ := List.mem_map.mp hc'
      by_cases hid : (c.id == cid) = true
      · have hcc : c' = { c with live := false } := by rw [← hfc]; simp [hid]
        rw [hcc] at hlive
        simp at hlive
      · have hcc : c' = c := by rw [← hfc]; simp [hid]
        rw [hcc] at hlive ⊢
        by_cases hcn : c.name = n
        · have := hC c hc hlive
          rw [hcn, hcm] at this
          have hceq : c.id = cid := by
            injection this with h9
            exact h9.symm
          simp [hceq] at hid
        · rw [lookupMap_removeKey_ne _ _ _ hcn]
          exact hC c hc hlive
    · intro kv hkv
      have hm := mem_removeKey hkv
      obtain ⟨c, hc, hcid, hcname⟩ := hE kv hm.1
      refine ⟨if c.id == cid then { c with live := false } else c,
        List.mem_map_of_mem _ hc, ?_, ?_⟩
      · rw [(cancel_keeps_id_name cid c).1]; exact hcid
      · rw [(cancel_keeps_id_name cid c).2]; exact hcname

theorem regInv_step (w : World) (op : RegOp) (h : regInv w) : regInv (regStep w op) := by
  cases op with
  | refresh env d => exact regInv_refresh env d w h
  | remove env n => exact regInv_remove env n w h

theorem regInv_w0 : regInv w0 := by
  refine ⟨?_, ?_, ?_, ?_⟩ <;> simp [w0]

theorem regInv_foldl (ops : List RegOp) : ∀ w, regInv w → regInv (ops.foldl regStep w) := by
  induction ops with
  | nil => intro w h; exact h
  | cons op rest ih =>
    intro w h
    exact ih (regStep w op) (regInv_step w op h)

theorem regInv_run (ops : List RegOp) : regInv (regRun ops) :=
  regInv_foldl ops w0 regInv_w0

theorem regD_refresh_ok (env : Env) (d : Deployment) (w : World) (u : Unit)
    (hfn : env.autoscaleFn d = .ok u) (hInv : regInv w) (hD : regD w) :
    regD (UpdateAutoscalerCron env d w).2 := by
  obtain ⟨hA, hB, hC, hE⟩ := hInv
  obtain ⟨hcr, hcm2, _⟩ := updateAutoscalerCron_reg_ok env d w u hfn
  unfold regD regDOn
  rw [hcr, hcm2]
  cases hcm : lookupMap w.cronMap (lookupStr d.labels "apiName") with
  | none =>
    intro kv hkv
    rcases List.mem_cons.mp hkv with h1 | h1
    · refine ⟨{ id := w.nextCronId, name := lookupStr d.labels "apiName", live := true },
        List.mem_append.mpr (Or.inr (by simp)), ?_, rfl⟩
      rw [h1]
    · have hm := mem_removeKey h1
      obtain ⟨c, hc, hcid, hlv⟩ := hD kv hm.1
      exact ⟨c, List.mem_append.mpr (Or.inl hc), hcid, hlv⟩
  | some cid =>
    intro kv hkv
    rcases List.mem_cons.mp hkv with h1 | h1
    · refine ⟨{ id := w.nextCronId, name := lookupStr d.labels "apiName", live := true },
        List.mem_append.mpr (Or.inr (by simp)), ?_, rfl⟩
      rw [h1]
    · have hm := mem_removeKey h1
      obtain ⟨c'', hc'', hc''id, hc''name⟩ := hE kv hm.1
      obtain ⟨c', hc', hc'id, hc'name⟩ := hE (lookupStr d.labels "apiName", cid)
        (lookupMap_mem hcm)
      have hkvne : kv.2 ≠ cid := by
        intro hkv2
        have hcc : c'' = c' :=
          List.inj_on_of_nodup_map hB hc'' hc' (by rw [hc''id, hkv2, hc'id])
        apply hm.2
        rw [← hc''name, hcc, hc'name]
      obtain ⟨c, hc, hcid, hlv⟩ := hD kv hm.1
      have hidne : (c.id == cid) = false := by
        simp only [beq_eq_false_iff_ne, ne_eq]
        rw [hcid]
        exact hkvne
      refine ⟨if c.id == cid then { c with live := false } else c,
        List.mem_append.mpr (Or.inl (List.mem_map_of_mem _ hc)), ?_, ?_⟩
      · rw [(cancel_keeps_id_name cid c).1]; exact hcid
      · simp [hidne]
        exact hlv

theorem regD_remove (env : Env) (n : String) (w : World) (hInv : regInv w) (hD : regD w) :
    regD (deleteK8sResources env n w).2 := by
  obtain ⟨hA, hB, hC, hE⟩ := hInv
  obtain ⟨hcr, hcm2, _⟩ := deleteK8sResources_registry env n w
  unfold regD regDOn
  rw [hcr, hcm2]
  cases hcm : lookupMap w.cronMap n with
  | none => exact hD
  | some cid =>
    intro kv hkv
    have hm := mem_removeKey hkv
    obtain ⟨c'', hc'', hc''id, hc''name⟩ := hE kv hm.1
    obtain ⟨c', hc', hc'id, hc'name⟩ := hE (n, cid) (lookupMap_mem hcm)
    have hkvne : kv.2 ≠ cid := by
      intro hkv2
      have hcc : c'' = c' :=
        List.inj_on_of_nodup_map hB hc'' hc' (by rw [hc''id, hkv2, hc'id])
      apply hm.2
      rw [← hc''name, hcc, hc'name]
    obtain ⟨c, hc, hcid, hlv⟩ := hD kv hm.1
    have hidne : (c.id == cid) = false := by
      simp only [beq_eq_false_iff_ne, ne_eq]
      rw [hcid]
      exact hkvne
    refine ⟨if c.id == cid then { c with live := false } else c,
      List.mem_map_of_mem _ hc, ?_, ?_⟩
    · rw [(cancel_keeps_id_name cid c).1]; exact hcid
    · simp [hidne]
      exact hlv

theorem regD_w0 : regD w0 := by
  intro kv hkv
  simp [w0] at hkv

theorem regInvD_foldl (ops : List RegOp) : ∀ w, regInv w → regD w → allRefreshOk ops = true →
    regInv (ops.foldl regStep w) ∧ regD (ops.foldl regStep w) := by
  induction ops with
  | nil => intro w h1 h2 _; exact ⟨h1, h2⟩
  | cons op rest ih =>
    intro w h1 h2 hall
    have hall' := List.all_eq_true.mp hall
    have hheadtail : allRefreshOk rest = true := by
      rw [allRefreshOk, List.all_eq_true]
      intro x hx
      exact hall' x (List.mem_cons_of_mem _ hx)
    have hhead := hall' op (List.mem_cons_self _ _)
    apply ih
    · exact regInv_step w op h1
    · cases op with
      | refresh env d =>
        cases hfn : env.autoscaleFn d with
        | error e =>
          exfalso
          simp only [hfn, exceptOk] at hhead
          exact absurd hhead (by simp)
        | ok u => exact regD_refresh_ok env d w u hfn h1 h2
      | remove env n => exact regD_remove env n w h1 h2
    · exact hheadtail

theorem regD_registeredLive (w : World) (hD : regD w) : registeredLive w = true := by
  unfold registeredLive
  rw [List.all_eq_true]
  intro kv hkv
  obtain ⟨c, hc, hcid, hlv⟩ := hD kv hkv
  rw [List.any_eq_true]
  exact ⟨c, hc, by simp [hcid, hlv]⟩

theorem liveCount_le_one (w : World) (h : regInv w) (name : String) :
    liveCountFor w name ≤ 1 := by
  obtain ⟨hA, hB, hC, hE⟩ := h
  unfold liveCountFor
  cases hcm : lookupMap w.cronMap name with
  | none =>
    have hnil : w.crons.filter (fun c => c.name == name && c.live) = [] := by
      rw [List.filter_eq_nil_iff]
      intro c hc hpc
      have hparts : (c.name == name) = true ∧ c.live = true := by simpa using hpc
      have hcn : c.name = name := by simpa using hparts.1
      have := hC c hc hparts.2
      rw [hcn, hcm] at this
      exact absurd this (by simp)
    rw [hnil]
    simp
  | some k =>
    refine length_le_one_of_nodup_ids
      (hB.sublist ((List.filter_sublist w.crons).map CronEntry.id)) k ?_
    intro c hc
    have hmem := List.mem_filter.mp hc
    have hparts : (c.name == name) = true ∧ c.live = true := by simpa using hmem.2
    have hcn : c.name = name := by simpa using hparts.1
    have := hC c hmem.1 hparts.2
    rw [hcn, hcm] at this
    injection this with h9
    exact h9.symm

theorem remove_clears (env : Env) (n : String) (w : World) (hInv : regInv w) :
    lookupMap (deleteK8sResources env n w).2.cronMap n = none ∧
    liveCountFor (deleteK8sResources env n w).2 n = 0 := by
  obtain ⟨hA, hB, hC, hE⟩ := hInv
  obtain ⟨hcr, hcm2, _⟩ := deleteK8sResources_registry env n w
  constructor
  · rw [hcm2]
    cases hcm : lookupMap w.cronMap n with
    | none => simpa using hcm
    | some cid => exact lookupMap_removeKey_self w.cronMap n
  · unfold liveCountFor
    rw [hcr]
    cases hcm : lookupMap w.cronMap n with
    | none =>
      have hnil : w.crons.filter (fun c => c.name == n && c.live) = [] := by
        rw [List.filter_eq_nil_iff]
        intro c hc hpc
        have hparts : (c.name == n) = true ∧ c.live = true := by simpa using hpc
        have hcn : c.name = n := by simpa using hparts.1
        have := hC c hc hparts.2
        rw [hcn, hcm] at this
        exact absurd this (by simp)
      rw [hnil]
      simp
    | some cid =>
      have hnil : (w.crons.map
          (fun c => if c.id == cid then { c with live := false } else c)).filter
            (fun c => c.name == n && c.live) = [] := by
        rw [List.filter_eq_nil_iff]
        intro c' hc' hpc
        obtain ⟨c, hc, hfc⟩ := List.mem_map.mp hc'
        have hparts : (c'.name == n) = true ∧ c'.live = true := by simpa using hpc
        by_cases hid : (c.id == cid) = true
        · have hcc : c' = { c with live := false } := by rw [← hfc]; simp [hid]
          rw [hcc] at hparts
          simp at hparts
        · have hcc : c' = c := by rw [← hfc]; simp [hid]
          rw [hcc] at hparts
          have hcn : c.name = n := by simpa using hparts.1
          have := hC c hc hparts.2
          rw [hcn, hcm] at this
          have hceq : c.id = cid := by
            injection this with h9
            exact h9.symm
          simp [hceq] at hid
      rw [hnil]
      simp

/-- C1 counterexample: after a successful registration refresh for API
name a followed by one whose task derivation fails, the registry still
maps a to the handle that the failing refresh cancelled, so it retains a
cancelled handle that was not replaced by a live one. -/
theorem c1_counterexample :
    registeredLive (regRun opsFailSecond) = false ∧
    lookupMap (regRun opsFailSecond).cronMap "a" = some 0 ∧
    (regRun opsFailSecond).crons = [{ id := 0, name := "a", live := false }] := by
  refine ⟨by decide, by decide, by decide⟩

/-- C1 amended: across every sequence of registration refreshes and
workload deletion paths, at most one live recurring task exists per API
name; when every refresh in the sequence derived its task successfully,
every handle held by the registry is live (a refresh whose derivation
fails cancels the previous task but leaves its stale handle registered
until the next successful refresh or deletion); and after the workload
deletion path runs for a name, no handle for that name remains registered
and no task for that name remains running. -/
theorem c1_registry (ops : List RegOp) (name : String) (env : Env) :
    liveCountFor (regRun ops) name ≤ 1 ∧
    (allRefreshOk ops = true → registeredLive (regRun ops) = true) ∧
    lookupMap (regStep (regRun ops) (.remove env name)).cronMap name = none ∧
    liveCountFor (regStep (regRun ops) (.remove env name)) name = 0 := by
  have hInv : regInv (regRun ops) := regInv_run ops
  refine ⟨liveCount_le_one _ hInv name, ?_, ?_, ?_⟩
  · intro hall
    have hD := (regInvD_foldl ops w0 regInv_w0 regD_w0 hall).2
    exact regD_registeredLive _ hD
  · exact (remove_clears env name _ hInv).1
  · exact (remove_clears env name _ hInv).2

theorem c1_registry_witness :
    liveCountFor (regRun opsTwoRefresh) "a" ≤ 1 ∧
    registeredLive (regRun opsTwoRefresh) = true ∧
    lookupMap (regStep (regRun opsTwoRefresh) (.remove baseEnv "a")).cronMap "a" = none ∧
    liveCountFor (regStep (regRun opsTwoRefresh) (.remove baseEnv "a")) "a" = 0 := by
  have h := c1_registry opsTwoRefresh "a" baseEnv
  exact ⟨h.1, h.2.1 (by decide), h.2.2.1, h.2.2.2⟩
